import Mathlib

/-!
Verification of the vue-tsc-rs core pipeline against its specification.

Shallow embedding conventions:
* Rust `String`/`&str` values are modelled as `List Char`; Rust byte offsets
  are modelled as character offsets (`pos += c.len_utf8()` becomes `pos + 1`).
  Every concrete input exercised below is ASCII, where the two coincide, and
  all offset algebra in the source is agnostic to the unit.
* Rust `u32` values are modelled as `Nat`.  `u32` subtraction only occurs in
  the source where the subtrahend is known to be bounded, matching truncated
  `Nat` subtraction.
* `Vec::partition_point(p)` is a binary search returning the first index at
  which `p` fails, assuming the vector is partitioned by `p`; it is modelled
  as the length of the maximal satisfying prefix, which agrees with it on
  every partitioned vector (all vectors searched in this development are
  sorted, hence partitioned).
* `HashMap` fields are modelled as association lists with first-match lookup.
* Loops whose progress depends on cursor advancement are given explicit fuel;
  fuel exhaustion is modelled as an error and is proved unreachable where a
  claim needs totality.
-/

/-- Rust strings as character lists. -/
abbrev Str := List Char

/-- Convert a Lean string literal to the `List Char` model. -/
def str (s : String) : Str := s.data

/-- Single-quote character (apostrophe), used when building literals. -/
def sqc : Char := Char.ofNat 39

/-- ASCII lowercase of one character (`u8::to_ascii_lowercase`). -/
def asciiLower (c : Char) : Char :=
  if 'A' ≤ c ∧ c ≤ 'Z' then Char.ofNat (c.toNat + 32) else c

/-- ASCII-lowercase a whole string (models `str::to_lowercase` on the ASCII
inputs used here). -/
def lowerStr (s : Str) : Str := s.map asciiLower

/-- `eq_ignore_ascii_case` on strings. -/
def eqIgnoreAsciiCase (a b : Str) : Bool :=
  lowerStr a == lowerStr b

/-- Length of the maximal prefix whose characters satisfy `p`. -/
def countWhile (p : Char → Bool) : Str → Nat
  | [] => 0
  | c :: cs => if p c then countWhile p cs + 1 else 0

/-- Number of characters before the first occurrence of the pattern `pat`
(the whole length when absent): `consume_until` advance count. -/
def countUntil (pat : Str) : Str → Nat
  | [] => 0
  | c :: cs => if pat.isPrefixOf (c :: cs) then 0 else countUntil pat cs + 1

/-- Number of characters before the first occurrence of any of the patterns. -/
def countUntilAny (pats : List Str) : Str → Nat
  | [] => 0
  | c :: cs =>
    if pats.any (fun p => p.isPrefixOf (c :: cs)) then 0
    else countUntilAny pats cs + 1

/-- Whether `pat` occurs as a contiguous substring of `s`. -/
def containsSub (s pat : Str) : Bool :=
  match s with
  | [] => pat.isPrefixOf ([] : Str)
  | c :: cs =>
    match pat.isPrefixOf (c :: cs) with
    | true => true
    | false => containsSub cs pat

/-- Helper for `countOccurrences`: `skip` characters remain inside the match
last counted and cannot start a new (non-overlapping) one. -/
def countOccAux (pat : Str) : Nat → Str → Nat
  | _, [] => 0
  | 0, c :: cs =>
    match pat.isPrefixOf (c :: cs) with
    | true => countOccAux pat (pat.length - 1) cs + 1
    | false => countOccAux pat 0 cs
  | skip + 1, _ :: cs => countOccAux pat skip cs

/-- Count of non-overlapping occurrences of `pat` in `s`, leftmost-first
(`str::matches(pat).count()` for a non-empty literal pattern). -/
def countOccurrences (s pat : Str) : Nat := countOccAux pat 0 s

/-- Index of the first occurrence of `pat` in `s`, if any. -/
def findSubIdx (pat : Str) : Str → Option Nat
  | [] => if pat.isEmpty then some 0 else none
  | c :: cs =>
    if pat.isPrefixOf (c :: cs) then some 0
    else (findSubIdx pat cs).map (· + 1)

/-- `str::trim` (leading and trailing whitespace removed). -/
def trimStr (s : Str) : Str :=
  ((s.dropWhile Char.isWhitespace).reverse.dropWhile Char.isWhitespace).reverse

/-- `Vec::partition_point` modelled on partitioned lists (see header). -/
def partitionPoint (p : α → Bool) (l : List α) : Nat :=
  (l.takeWhile p).length

/-! ## source-map crate (`src/crates/source-map/src/lib.rs`) -/

/-- A half-open span `[start, end)` (`Span`). -/
structure Span where
  start : Nat
  «end» : Nat
  deriving Repr, DecidableEq

/-- `Span::new`. -/
def Span.new (s e : Nat) : Span := ⟨s, e⟩

/-- `Span::empty`. -/
def Span.empty (offset : Nat) : Span := ⟨offset, offset⟩

/-- `Span::len`. -/
def Span.len (s : Span) : Nat := s.«end» - s.start

/-- A 0-indexed line/column position (`LineCol`). -/
structure LineCol where
  line : Nat
  col : Nat
  deriving Repr, DecidableEq

/-- A line index: sorted line-start offsets plus total length (`LineIndex`). -/
structure LineIndex where
  line_starts : List Nat
  len : Nat
  deriving Repr, DecidableEq

/-- `LineIndex::new`: offsets just after each newline, starting with 0. -/
def LineIndex.new (text : Str) : LineIndex :=
  let rec starts : Nat → Str → List Nat
    | _, [] => []
    | i, c :: cs => if c = '\n' then (i + 1) :: starts (i + 1) cs else starts (i + 1) cs
  ⟨0 :: starts 0 text, text.length⟩

/-- `LineIndex::line_col`. -/
def LineIndex.line_col (idx : LineIndex) (offset : Nat) : LineCol :=
  let line := partitionPoint (fun start => decide (start ≤ offset)) idx.line_starts - 1
  let line_start := idx.line_starts.getD line 0
  ⟨line, offset - line_start⟩

/-- `LineIndex::offset`. -/
def LineIndex.offset (idx : LineIndex) (lc : LineCol) : Option Nat :=
  match idx.line_starts.get? lc.line with
  | none => none
  | some line_start =>
    let offset := line_start + lc.col
    if offset ≤ idx.len then some offset else none

/-- A mapping from generated code back to original source (`SourceMapping`). -/
structure SourceMapping where
  generated_offset : Nat
  generated_length : Nat
  source_offset : Nat
  source_length : Nat
  source_file : Option Str
  deriving Repr, DecidableEq

/-- `SourceMapping::new` (equal lengths). -/
def SourceMapping.new (generated_offset source_offset length : Nat) : SourceMapping :=
  ⟨generated_offset, length, source_offset, length, none⟩

/-- `SourceMapping::new_with_lengths`. -/
def SourceMapping.new_with_lengths
    (generated_offset generated_length source_offset source_length : Nat) : SourceMapping :=
  ⟨generated_offset, generated_length, source_offset, source_length, none⟩

/-- A source map: mappings kept sorted by generated offset (`SourceMap`). -/
structure SourceMap where
  mappings : List SourceMapping
  deriving Repr, DecidableEq

/-- `SourceMap::new`. -/
def SourceMap.new : SourceMap := ⟨[]⟩

/-- Insertion at `partition_point(|m| m.generated_offset < new.generated_offset)`:
the new mapping goes after every strictly smaller generated offset. -/
def SourceMap.insertAt : List SourceMapping → SourceMapping → List SourceMapping
  | [], m => [m]
  | x :: xs, m =>
    if x.generated_offset < m.generated_offset then x :: SourceMap.insertAt xs m
    else m :: x :: xs

/-- `SourceMap::add_mapping`. -/
def SourceMap.add_mapping (sm : SourceMap) (m : SourceMapping) : SourceMap :=
  ⟨SourceMap.insertAt sm.mappings m⟩

/-- `SourceMap::add`. -/
def SourceMap.add (sm : SourceMap) (generated_offset source_offset length : Nat) : SourceMap :=
  sm.add_mapping (SourceMapping.new generated_offset source_offset length)

/-- `SourceMap::find_source`: binary search for the mapping containing the
generated offset, with the two containment re-checks of the source. -/
def SourceMap.find_source (sm : SourceMap) (generated_offset : Nat) : Option SourceMapping :=
  let idx := partitionPoint
    (fun m => decide (m.generated_offset + m.generated_length ≤ generated_offset)) sm.mappings
  let fromPrev : Option SourceMapping :=
    if idx > 0 then
      match sm.mappings.get? (idx - 1) with
      | some m =>
        if m.generated_offset ≤ generated_offset ∧
            generated_offset < m.generated_offset + m.generated_length then some m else none
      | none => none
    else none
  match fromPrev with
  | some m => some m
  | none =>
    match sm.mappings.get? idx with
    | some m =>
      if m.generated_offset ≤ generated_offset ∧
          generated_offset < m.generated_offset + m.generated_length then some m else none
    | none => none

/-- `SourceMap::to_source_offset`. -/
def SourceMap.to_source_offset (sm : SourceMap) (generated_offset : Nat) : Option Nat :=
  (sm.find_source generated_offset).map (fun m =>
    let delta := generated_offset - m.generated_offset
    if m.generated_length = m.source_length then m.source_offset + delta
    else if m.generated_length > 0 then
      m.source_offset + delta * m.source_length / m.generated_length
    else m.source_offset)

/-- Builder for generating code with source mappings (`CodeBuilder`). -/
structure CodeBuilder where
  code : Str
  source_map : SourceMap
  deriving Repr, DecidableEq

/-- `CodeBuilder::new`. -/
def CodeBuilder.new : CodeBuilder := ⟨[], SourceMap.new⟩

/-- Tail-recursive list length, used to model the constant-time
`String::len`; `strLenAux_eq` below shows it agrees with `List.length`. -/
def strLenAux : Nat → Str → Nat
  | acc, [] => acc
  | acc, _ :: cs => strLenAux (acc + 1) cs

theorem strLenAux_eq (s : Str) : ∀ acc : Nat, strLenAux acc s = acc + s.length := by
  induction s with
  | nil => intro acc; simp [strLenAux]
  | cons c cs ih => intro acc; simp [strLenAux, ih]; omega

/-- `CodeBuilder::offset`. -/
def CodeBuilder.offset (b : CodeBuilder) : Nat := strLenAux 0 b.code

theorem CodeBuilder.offset_eq (b : CodeBuilder) : b.offset = b.code.length := by
  simp [CodeBuilder.offset, strLenAux_eq]

/-- `CodeBuilder::push_str`. -/
def CodeBuilder.push_str (b : CodeBuilder) (code : Str) : CodeBuilder :=
  { b with code := b.code ++ code }

/-- `CodeBuilder::push`. -/
def CodeBuilder.push (b : CodeBuilder) (c : Char) : CodeBuilder :=
  { b with code := b.code ++ [c] }

/-- `CodeBuilder::push_mapped`. -/
def CodeBuilder.push_mapped (b : CodeBuilder) (code : Str) (source_offset : Nat) : CodeBuilder :=
  let generated_offset := b.offset
  let len := code.length
  let b := { b with code := b.code ++ code }
  if len > 0 then
    { b with source_map := b.source_map.add generated_offset source_offset len }
  else b

/-- `CodeBuilder::push_with_mapping`. -/
def CodeBuilder.push_with_mapping (b : CodeBuilder) (code : Str)
    (source_offset source_length : Nat) : CodeBuilder :=
  let generated_offset := b.offset
  let generated_length := code.length
  let b := { b with code := b.code ++ code }
  if generated_length > 0 ∨ source_length > 0 then
    { b with
      source_map := b.source_map.add_mapping
        (SourceMapping.new_with_lengths generated_offset generated_length
          source_offset source_length) }
  else b

/-- `CodeBuilder::newline`. -/
def CodeBuilder.newline (b : CodeBuilder) : CodeBuilder :=
  { b with code := b.code ++ ['\n'] }

/-- `CodeBuilder::finish`. -/
def CodeBuilder.finish (b : CodeBuilder) : Str × SourceMap := (b.code, b.source_map)

/-- One public `CodeBuilder` call, for quantifying over call sequences. -/
inductive BuilderCall where
  | push_str (s : Str)
  | push (c : Char)
  | push_mapped (s : Str) (source_offset : Nat)
  | push_with_mapping (s : Str) (source_offset source_length : Nat)
  | newline
  deriving Repr, DecidableEq

/-- Apply one builder call. -/
def applyCall (b : CodeBuilder) : BuilderCall → CodeBuilder
  | .push_str s => b.push_str s
  | .push c => b.push c
  | .push_mapped s o => b.push_mapped s o
  | .push_with_mapping s o l => b.push_with_mapping s o l
  | .newline => b.newline

/-- Apply a sequence of builder calls to a fresh builder. -/
def applyCalls (calls : List BuilderCall) : CodeBuilder :=
  calls.foldl applyCall CodeBuilder.new

/-- Builder state produced only by `push_mapped` calls. -/
def pushMappedAll (calls : List (Str × Nat)) : CodeBuilder :=
  calls.foldl (fun b c => b.push_mapped c.1 c.2) CodeBuilder.new

/-- Generated offset at the moment the `i`-th `push_mapped` call runs:
the sum of the lengths of the previously pushed strings. -/
def genStart (calls : List (Str × Nat)) (i : Nat) : Nat :=
  ((calls.take i).map (fun c => c.1.length)).sum

/-! ## ts-runner diagnostics (`src/crates/ts-runner/src/diagnostics.rs`) -/

/-- Diagnostic severity (`TsSeverity`). -/
inductive TsSeverity where
  | Error
  | Warning
  | Suggestion
  | Message
  deriving Repr, DecidableEq

/-- A single TypeScript diagnostic (`TsDiagnostic`); `related` is omitted as
no code path below reads or writes it.  Paths are strings. -/
structure TsDiagnostic where
  message : Str
  code : Nat
  severity : TsSeverity
  file : Option Str
  line : Option Nat
  column : Option Nat
  end_line : Option Nat
  end_column : Option Nat
  deriving Repr, DecidableEq

/-- Remapper for converting virtual file positions to original positions
(`DiagnosticRemapper`); the three `HashMap`s are association lists. -/
structure DiagnosticRemapper where
  virtual_to_original : List (Str × Str)
  source_maps : List (Str × SourceMap)
  line_indices : List (Str × LineIndex)
  deriving Repr, DecidableEq

/-- `DiagnosticRemapper::new`. -/
def DiagnosticRemapper.new : DiagnosticRemapper := ⟨[], [], []⟩

/-- `HashMap::insert` on the association-list model (replace or prepend). -/
def assocInsert (l : List (Str × α)) (k : Str) (v : α) : List (Str × α) :=
  if l.any (fun p => p.1 == k) then
    l.map (fun p => if p.1 == k then (k, v) else p)
  else (k, v) :: l

/-- `HashMap::get` on the association-list model. -/
def assocGet (l : List (Str × α)) (k : Str) : Option α :=
  (l.find? (fun p => p.1 == k)).map Prod.snd

/-- `DiagnosticRemapper::register`. -/
def DiagnosticRemapper.register (r : DiagnosticRemapper) (virtual_file original_file : Str)
    (source_map : SourceMap) (original_content : Str) : DiagnosticRemapper :=
  { virtual_to_original := assocInsert r.virtual_to_original virtual_file original_file,
    source_maps := assocInsert r.source_maps virtual_file source_map,
    line_indices := assocInsert r.line_indices original_file (LineIndex.new original_content) }

/-- `DiagnosticRemapper::remap` (the Rust code mutates the diagnostic in
place; the updated diagnostic is returned).  Note the source passes the raw
1-indexed `col` to `find_source` and leaves `line`/`column` untouched when no
mapping matches. -/
def DiagnosticRemapper.remap (r : DiagnosticRemapper) (d : TsDiagnostic) : TsDiagnostic :=
  match d.file with
  | none => d
  | some file =>
    match assocGet r.virtual_to_original file with
    | none => d
    | some original_file =>
      match assocGet r.source_maps file with
      | none => d
      | some source_map =>
        let d := { d with file := some original_file }
        match d.line, d.column with
        | some _line, some col =>
          (match source_map.find_source col with
           | some mapping =>
             (match assocGet r.line_indices original_file with
              | some line_index =>
                let orig_line_col := line_index.line_col mapping.source_offset
                { d with line := some (orig_line_col.line + 1),
                         column := some (orig_line_col.col + 1) }
              | none => d)
           | none => d)
        | _, _ => d

/-! ## Lemmas about `SourceMap.insertAt` -/

theorem mem_insertAt {l : List SourceMapping} {m x : SourceMapping}
    (h : x ∈ SourceMap.insertAt l m) : x = m ∨ x ∈ l := by
  induction l with
  | nil => simpa [SourceMap.insertAt] using h
  | cons a as ih =>
    simp only [SourceMap.insertAt] at h
    by_cases hc : a.generated_offset < m.generated_offset
    · simp only [hc, if_pos] at h
      rcases List.mem_cons.mp h with h1 | h2
      · exact Or.inr (List.mem_cons.mpr (Or.inl h1))
      · rcases ih h2 with h3 | h4
        · exact Or.inl h3
        · exact Or.inr (List.mem_cons.mpr (Or.inr h4))
    · simp only [hc, if_neg, not_false_iff] at h
      rcases List.mem_cons.mp h with h1 | h2
      · exact Or.inl h1
      · exact Or.inr h2

theorem insertAt_append_of_lt {l : List SourceMapping} {m : SourceMapping}
    (h : ∀ x ∈ l, x.generated_offset < m.generated_offset) :
    SourceMap.insertAt l m = l ++ [m] := by
  induction l with
  | nil => rfl
  | cons a as ih =>
    have ha : a.generated_offset < m.generated_offset := h a (List.mem_cons_self a as)
    simp only [SourceMap.insertAt, ha, if_pos, List.cons_append]
    rw [ih (fun x hx => h x (List.mem_cons_of_mem a hx))]

/-- Generated offsets non-decreasing. -/
def genLe (a b : SourceMapping) : Prop := a.generated_offset ≤ b.generated_offset

/-- The generated ranges of two mappings share no offset. -/
def genRangesDisjoint (a b : SourceMapping) : Prop :=
  ∀ g, a.generated_offset ≤ g → g < a.generated_offset + a.generated_length →
    b.generated_offset ≤ g → g < b.generated_offset + b.generated_length → False

theorem insertAt_pairwise_genLe {l : List SourceMapping} {m : SourceMapping}
    (hs : List.Pairwise genLe l) (hle : ∀ x ∈ l, x.generated_offset ≤ m.generated_offset) :
    List.Pairwise genLe (SourceMap.insertAt l m) := by
  induction l with
  | nil => simp [SourceMap.insertAt]
  | cons a as ih =>
    rcases List.pairwise_cons.mp hs with ⟨ha, has⟩
    simp only [SourceMap.insertAt]
    by_cases hc : a.generated_offset < m.generated_offset
    · simp only [hc, if_pos]
      refine List.pairwise_cons.mpr ⟨?_, ih has (fun x hx => hle x (List.mem_cons_of_mem a hx))⟩
      intro y hy
      rcases mem_insertAt hy with h1 | h2
      · subst h1; exact le_of_lt hc
      · exact ha y h2
    · simp only [hc, if_neg, not_false_iff]
      have hma : m.generated_offset ≤ a.generated_offset := le_of_not_lt hc
      refine List.pairwise_cons.mpr ⟨?_, hs⟩
      intro y hy
      rcases List.mem_cons.mp hy with h1 | h2
      · subst h1; exact hma
      · exact le_trans hma (ha y h2)

theorem insertAt_pairwise_disjoint {l : List SourceMapping} {m : SourceMapping}
    (hd : List.Pairwise genRangesDisjoint l)
    (hm : ∀ x ∈ l, genRangesDisjoint x m ∧ genRangesDisjoint m x) :
    List.Pairwise genRangesDisjoint (SourceMap.insertAt l m) := by
  induction l with
  | nil => simp [SourceMap.insertAt]
  | cons a as ih =>
    rcases List.pairwise_cons.mp hd with ⟨ha, has⟩
    have hma := hm a (List.mem_cons_self a as)
    simp only [SourceMap.insertAt]
    by_cases hc : a.generated_offset < m.generated_offset
    · simp only [hc, if_pos]
      refine List.pairwise_cons.mpr
        ⟨?_, ih has (fun x hx => hm x (List.mem_cons_of_mem a hx))⟩
      intro y hy
      rcases mem_insertAt hy with h1 | h2
      · subst h1; exact hma.1
      · exact ha y h2
    · simp only [hc, if_neg, not_false_iff]
      refine List.pairwise_cons.mpr ⟨?_, hd⟩
      intro y hy
      rcases List.mem_cons.mp hy with h1 | h2
      · subst h1; exact hma.2
      · exact (hm y (List.mem_cons_of_mem a h2)).2

/-! ## C2: the builder source map after arbitrary call sequences -/

/-- Builder invariant: mappings lie inside the generated code, are sorted by
generated offset, and are pairwise disjoint on the generated axis. -/
def BuilderInv (b : CodeBuilder) : Prop :=
  (∀ m ∈ b.source_map.mappings, m.generated_offset + m.generated_length ≤ b.code.length) ∧
  List.Pairwise genLe b.source_map.mappings ∧
  List.Pairwise genRangesDisjoint b.source_map.mappings

theorem builderInv_step (b : CodeBuilder) (c : BuilderCall) (hinv : BuilderInv b) :
    BuilderInv (applyCall b c) := by
  obtain ⟨hbound, hsort, hdisj⟩ := hinv
  have hgen_le : ∀ m ∈ b.source_map.mappings, m.generated_offset ≤ b.code.length := by
    intro m hm
    have := hbound m hm
    omega
  -- Generic step: insert a mapping starting at the current code length while
  -- appending `s` of length ≥ the generated length.
  have key : ∀ (s : Str) (glen soff slen : Nat), glen ≤ s.length →
      BuilderInv ⟨b.code ++ s,
        b.source_map.add_mapping ⟨b.code.length, glen, soff, slen, none⟩⟩ := by
    intro s glen soff slen hglen
    have hmem : ∀ x ∈ (b.source_map.add_mapping
        ⟨b.code.length, glen, soff, slen, none⟩).mappings,
        x = (⟨b.code.length, glen, soff, slen, none⟩ : SourceMapping) ∨
          x ∈ b.source_map.mappings := fun x hx => mem_insertAt hx
    refine ⟨?_, ?_, ?_⟩
    · intro m hm
      rcases hmem m hm with h1 | h2
      · subst h1
        simp only [List.length_append]
        omega
      · have := hbound m h2
        simp only [List.length_append]
        omega
    · exact insertAt_pairwise_genLe hsort hgen_le
    · refine insertAt_pairwise_disjoint hdisj ?_
      intro x hx
      have hxb := hbound x hx
      constructor
      · intro g hg1 hg2 hg3 hg4
        dsimp only at hg3 hg4
        omega
      · intro g hg1 hg2 hg3 hg4
        dsimp only at hg1 hg2
        omega
  cases c with
  | push_str s =>
    simp only [applyCall, CodeBuilder.push_str]
    refine ⟨?_, hsort, hdisj⟩
    intro m hm
    have := hbound m hm
    simp only [List.length_append]
    omega
  | push ch =>
    simp only [applyCall, CodeBuilder.push]
    refine ⟨?_, hsort, hdisj⟩
    intro m hm
    have := hbound m hm
    simp only [List.length_append]
    omega
  | newline =>
    simp only [applyCall, CodeBuilder.newline]
    refine ⟨?_, hsort, hdisj⟩
    intro m hm
    have := hbound m hm
    simp only [List.length_append]
    omega
  | push_mapped s soff =>
    simp only [applyCall, CodeBuilder.push_mapped, CodeBuilder.offset_eq]
    by_cases hlen : s.length > 0
    · simp only [hlen, if_pos]
      exact key s s.length soff s.length (le_refl _)
    · simp only [hlen, if_neg, not_false_iff]
      have hs : s = [] := List.length_eq_zero.mp (Nat.eq_zero_of_not_pos hlen)
      subst hs
      refine ⟨?_, hsort, hdisj⟩
      intro m hm
      have := hbound m hm
      simp only [List.append_nil]
      omega
  | push_with_mapping s soff slen =>
    simp only [applyCall, CodeBuilder.push_with_mapping, CodeBuilder.offset_eq]
    by_cases hcond : s.length > 0 ∨ slen > 0
    · simp only [hcond, if_pos]
      exact key s s.length soff slen (le_refl _)
    · simp only [hcond, if_neg, not_false_iff]
      push_neg at hcond
      have hs : s = [] := List.length_eq_zero.mp (Nat.le_zero.mp hcond.1)
      subst hs
      refine ⟨?_, hsort, hdisj⟩
      intro m hm
      have := hbound m hm
      simp only [List.append_nil]
      omega

theorem builderInv_applyCalls (calls : List BuilderCall) : BuilderInv (applyCalls calls) := by
  have base : BuilderInv CodeBuilder.new := by
    refine ⟨?_, ?_, ?_⟩ <;> simp [CodeBuilder.new, SourceMap.new]
  have gen : ∀ (calls : List BuilderCall) (b : CodeBuilder), BuilderInv b →
      BuilderInv (calls.foldl applyCall b) := by
    intro calls
    induction calls with
    | nil => intro b hb; exact hb
    | cons c cs ih =>
      intro b hb
      exact ih (applyCall b c) (builderInv_step b c hb)
  exact gen calls CodeBuilder.new base

/-- C2, counterexample input: a `push_with_mapping` with an empty string but a
positive source length, followed by a `push_mapped`. -/
def c2calls : List BuilderCall :=
  [.push_with_mapping [] 5 3, .push_mapped (str "a") 7]

/-- C2 counterexample: after `push_with_mapping("", 5, 3); push_mapped("a", 7)`
the source map holds two mappings with generated offset 0, so the mappings are
not strictly sorted by generated offset. -/
theorem c2_counterexample :
    ¬ List.Pairwise (fun a b : SourceMapping => a.generated_offset < b.generated_offset)
      (applyCalls c2calls).source_map.mappings := by
  intro h
  have he : (applyCalls c2calls).source_map.mappings
      = [⟨0, 1, 7, 1, none⟩, ⟨0, 0, 5, 3, none⟩] := by rfl
  rw [he] at h
  rcases List.pairwise_cons.mp h with ⟨h1, _⟩
  simpa using h1 _ (List.mem_cons_self _ _)

/-- C2 (amended): after any sequence of `CodeBuilder` calls the source map's
mappings are sorted (non-strictly) by generated offset — equal offsets are
possible when `push_with_mapping` is given an empty string — and no two
mappings overlap on the generated axis. -/
theorem c2_sourceMap_sorted_and_disjoint (calls : List BuilderCall) :
    List.Pairwise genLe (applyCalls calls).source_map.mappings ∧
    List.Pairwise genRangesDisjoint (applyCalls calls).source_map.mappings :=
  ⟨(builderInv_applyCalls calls).2.1, (builderInv_applyCalls calls).2.2⟩

/-! ## C1: round-trip of `push_mapped`-only builder states -/

/-- The mapping list laid down by consecutive `push_mapped` calls starting at
generated offset `start`. -/
def chainMaps (start : Nat) : List (Str × Nat) → List SourceMapping
  | [] => []
  | (s, o) :: rest => SourceMapping.new start o s.length :: chainMaps (start + s.length) rest

theorem genStart_nil (i : Nat) : genStart [] i = 0 := by
  simp [genStart]

theorem genStart_zero (calls : List (Str × Nat)) : genStart calls 0 = 0 := by
  simp [genStart]

theorem genStart_cons (c : Str × Nat) (cs : List (Str × Nat)) (i : Nat) :
    genStart (c :: cs) (i + 1) = c.1.length + genStart cs i := by
  simp [genStart, List.take_succ_cons]

theorem pushMapped_fold_mappings :
    ∀ (calls : List (Str × Nat)) (b : CodeBuilder),
    (∀ c ∈ calls, c.1 ≠ []) →
    (∀ x ∈ b.source_map.mappings,
      x.generated_offset + x.generated_length ≤ b.code.length ∧ 0 < x.generated_length) →
    (List.foldl (fun b c => b.push_mapped c.1 c.2) b calls).source_map.mappings
      = b.source_map.mappings ++ chainMaps b.code.length calls := by
  intro calls
  induction calls with
  | nil => intro b _ _; simp [chainMaps]
  | cons c cs ih =>
    intro b hne hinv
    obtain ⟨s, o⟩ := c
    have hs : s ≠ [] := hne (s, o) (List.mem_cons_self _ _)
    have hlen : s.length > 0 := List.length_pos.mpr hs
    have hstep : b.push_mapped s o =
        ⟨b.code ++ s,
          ⟨b.source_map.mappings ++ [SourceMapping.new b.code.length o s.length]⟩⟩ := by
      simp only [CodeBuilder.push_mapped, CodeBuilder.offset_eq, hlen, if_pos,
        SourceMap.add, SourceMap.add_mapping]
      congr 2
      apply insertAt_append_of_lt
      intro x hx
      have := hinv x hx
      simp only [SourceMapping.new]
      omega
    rw [List.foldl_cons, hstep]
    have hinv2 : ∀ x ∈ (b.source_map.mappings ++ [SourceMapping.new b.code.length o s.length]),
        x.generated_offset + x.generated_length ≤ (b.code ++ s).length ∧
          0 < x.generated_length := by
      intro x hx
      rcases List.mem_append.mp hx with h1 | h2
      · have := hinv x h1
        simp only [List.length_append]
        omega
      · have hx2 : x = SourceMapping.new b.code.length o s.length := by simpa using h2
        subst hx2
        simp only [SourceMapping.new, List.length_append]
        omega
    have := ih ⟨b.code ++ s, ⟨b.source_map.mappings ++ [SourceMapping.new b.code.length o s.length]⟩⟩
      (fun x hx => hne x (List.mem_cons_of_mem _ hx)) hinv2
    rw [this]
    simp [chainMaps, List.append_assoc, List.length_append]

theorem find_source_cons_of_le {m0 : SourceMapping} {l : List SourceMapping} {g : Nat}
    (h : m0.generated_offset + m0.generated_length ≤ g) :
    SourceMap.find_source ⟨m0 :: l⟩ g = SourceMap.find_source ⟨l⟩ g := by
  have hp : (decide (m0.generated_offset + m0.generated_length ≤ g)) = true := by
    simpa using h
  have hnc : ¬ (m0.generated_offset ≤ g ∧
      g < m0.generated_offset + m0.generated_length) := by omega
  have htw : List.takeWhile
        (fun m => decide (m.generated_offset + m.generated_length ≤ g)) (m0 :: l)
      = m0 :: List.takeWhile
        (fun m => decide (m.generated_offset + m.generated_length ≤ g)) l := by
    simp [List.takeWhile_cons, hp]
  simp only [SourceMap.find_source, partitionPoint, htw, List.length_cons]
  cases hj : (List.takeWhile
      (fun m => decide (m.generated_offset + m.generated_length ≤ g)) l).length with
  | zero =>
    simp only [Nat.zero_add, Nat.sub_self, gt_iff_lt, Nat.zero_lt_one, if_pos, if_neg,
      Nat.lt_irrefl, List.get?, hnc, ite_false]
  | succ k =>
    have h1 : k + 1 + 1 - 1 = k + 1 := by omega
    simp only [h1, gt_iff_lt, Nat.zero_lt_succ, if_pos, List.get?, Nat.add_sub_cancel]

theorem find_source_chain :
    ∀ (calls : List (Str × Nat)) (start i g : Nat) (s : Str) (o : Nat),
    calls.get? i = some (s, o) →
    start + genStart calls i ≤ g →
    g < start + genStart calls i + s.length →
    SourceMap.find_source ⟨chainMaps start calls⟩ g
      = some (SourceMapping.new (start + genStart calls i) o s.length) := by
  intro calls
  induction calls with
  | nil => intro start i g s o hget _ _; simp [List.get?] at hget
  | cons c cs ih =>
    intro start i g s o hget hlo hhi
    obtain ⟨s0, o0⟩ := c
    cases i with
    | zero =>
      have hso : s0 = s ∧ o0 = o := by
        simpa [List.get?, Prod.ext_iff] using hget
      obtain ⟨hs0, ho0⟩ := hso
      rw [show ((s0, o0) : Str × Nat) = (s, o) from by rw [hs0, ho0]]
      rw [genStart_zero] at hlo hhi ⊢
      rw [Nat.add_zero] at hlo hhi ⊢
      have hp : (decide ((SourceMapping.new start o s.length).generated_offset +
          (SourceMapping.new start o s.length).generated_length ≤ g)) = false := by
        have : ¬ (start + s.length ≤ g) := by omega
        simpa [SourceMapping.new] using this
      have hc : ((SourceMapping.new start o s.length).generated_offset ≤ g ∧
          g < (SourceMapping.new start o s.length).generated_offset +
            (SourceMapping.new start o s.length).generated_length) := by
        refine ⟨?_, ?_⟩ <;> · show _; simp only [SourceMapping.new]; omega
      show SourceMap.find_source
          ⟨SourceMapping.new start o s.length :: chainMaps (start + s.length) cs⟩ g = _
      simp only [SourceMap.find_source, partitionPoint, List.takeWhile_cons, hp]
      simp [hc]
    | succ j =>
      have hget2 : cs.get? j = some (s, o) := by simpa [List.get?] using hget
      have hcons : genStart ((s0, o0) :: cs) (j + 1) = s0.length + genStart cs j :=
        genStart_cons (s0, o0) cs j
      rw [hcons] at hlo hhi
      have hhead : (SourceMapping.new start o0 s0.length).generated_offset +
          (SourceMapping.new start o0 s0.length).generated_length ≤ g := by
        show start + s0.length ≤ g
        omega
      show SourceMap.find_source
          ⟨SourceMapping.new start o0 s0.length :: chainMaps (start + s0.length) cs⟩ g = _
      rw [find_source_cons_of_le hhead]
      have hih := ih (start + s0.length) j g s o hget2 (by omega) (by omega)
      rw [hih, hcons, ← Nat.add_assoc]

/-- C1: for a builder state produced only by `push_mapped(s, o)` calls with
non-empty strings, every generated offset `g` inside the range pushed by the
`i`-th call maps back through `to_source_offset` to exactly
`o + (g − gen_start_of_that_call)`. -/
theorem c1_push_mapped_roundtrip (calls : List (Str × Nat)) (i : Nat) (s : Str) (o g : Nat)
    (hne : ∀ c ∈ calls, c.1 ≠ []) (hget : calls.get? i = some (s, o))
    (hlo : genStart calls i ≤ g) (hhi : g < genStart calls i + s.length) :
    (pushMappedAll calls).source_map.to_source_offset g
      = some (o + (g - genStart calls i)) := by
  have hmaps : (pushMappedAll calls).source_map.mappings = chainMaps 0 calls := by
    have := pushMapped_fold_mappings calls CodeBuilder.new hne
      (by simp [CodeBuilder.new, SourceMap.new])
    simpa [pushMappedAll, CodeBuilder.new] using this
  have hsm : (pushMappedAll calls).source_map = ⟨chainMaps 0 calls⟩ := by
    have heta : (pushMappedAll calls).source_map
        = ⟨(pushMappedAll calls).source_map.mappings⟩ := rfl
    rw [heta, hmaps]
  have hfind := find_source_chain calls 0 i g s o hget (by omega) (by omega)
  rw [SourceMap.to_source_offset, hsm, hfind]
  simp [SourceMapping.new]

/-- C1 witness: one `push_mapped("ab", 5)` call; generated offset 1 maps back
to source offset 6. -/
theorem c1_witness :
    (∀ c ∈ [(str "ab", 5)], c.1 ≠ ([] : Str)) ∧
    ([(str "ab", 5)].get? 0 = some (str "ab", 5)) ∧
    genStart [(str "ab", 5)] 0 ≤ 1 ∧
    1 < genStart [(str "ab", 5)] 0 + (str "ab").length ∧
    (pushMappedAll [(str "ab", 5)]).source_map.to_source_offset 1
      = some (5 + (1 - genStart [(str "ab", 5)] 0)) :=
  ⟨by decide, by decide, by decide, by decide,
    c1_push_mapped_roundtrip [(str "ab", 5)] 0 (str "ab") 5 1
      (by decide) (by decide) (by decide) (by decide)⟩

/-! ## C3: diagnostic remapping evaluated at an uncovered position -/

/-- C3 failing input, remapper: virtual `v.ts` registered against original
`a.vue`, with a single mapping of generated range `[10, 15)` to source
range `[0, 5)`. -/
def c3_remapper : DiagnosticRemapper :=
  DiagnosticRemapper.new.register (str "v.ts") (str "a.vue")
    (SourceMap.new.add 10 0 5) (str "abc\ndef")

/-- C3 failing input, diagnostic: reported in `v.ts` at line 2, column 5. -/
def c3_diag : TsDiagnostic :=
  ⟨str "type error", 2322, .Error, some (str "v.ts"), some 2, some 5, none, none⟩

/-- C3: the code never converts line/column to a generated byte offset — it
hands the raw 1-indexed column (5) to `find_source` — and when no mapping
covers that value the diagnostic is NOT discarded: its file is still
rewritten to the original file while the virtual position (2, 5) is kept,
i.e. it is misattributed rather than dropped. -/
theorem c3_remap_keeps_unmapped_position :
    c3_remapper.remap c3_diag
      = ⟨str "type error", 2322, .Error, some (str "a.vue"), some 2, some 5, none, none⟩ := by
  rfl

/-! ## vue-parser crate (`src/crates/vue-parser/src/{error,ast,lexer,parser}.rs`) -/

/-- Error codes for SFC parsing (`ErrorCode`). -/
inductive ErrorCode where
  | UnexpectedToken
  | UnclosedTag
  | InvalidAttribute
  | DuplicateBlock
  | InvalidContent
  | SyntaxError
  deriving Repr, DecidableEq

/-- An SFC parse error (`ParseError`). -/
structure ParseError where
  message : Str
  span : Span
  code : ErrorCode
  deriving Repr, DecidableEq

/-- `ParseError::duplicate_block`. -/
def ParseError.duplicate_block (block : Str) (span : Span) : ParseError :=
  ⟨str "Duplicate " ++ block ++ str " block", span, .DuplicateBlock⟩

/-- Fuel exhaustion marker: stands for a loop of the source that would not
terminate (or has not yet) within the given fuel; proved unreachable for the
fuel used by `parse_sfc`. -/
def fuelErr : ParseError := ⟨str "fuel exhausted", Span.empty 0, .SyntaxError⟩

/-- An attribute on a block tag (`BlockAttr`). -/
structure BlockAttr where
  name : Str
  value : Option Str
  span : Span
  value_span : Option Span
  deriving Repr, DecidableEq

/-- `BlockAttr::boolean`. -/
def BlockAttr.boolean (name : Str) (span : Span) : BlockAttr :=
  ⟨name, none, span, none⟩

/-- `BlockAttr::with_value`. -/
def BlockAttr.with_value (name : Str) (value : Str) (span value_span : Span) : BlockAttr :=
  ⟨name, some value, span, some value_span⟩

/-- Common block properties (`SfcBlock`). -/
structure SfcBlock where
  span : Span
  content_span : Span
  content : Str
  attrs : List BlockAttr
  deriving Repr, DecidableEq

/-- The `src` attribute of a block (`SrcAttr`). -/
structure SrcAttr where
  value : Str
  span : Span
  value_span : Span
  deriving Repr, DecidableEq

/-- The template block (`TemplateBlock`). -/
structure TemplateBlock where
  block : SfcBlock
  lang : Option Str
  functional : Bool
  src : Option SrcAttr
  deriving Repr, DecidableEq

/-- The plain script block (`ScriptBlock`). -/
structure ScriptBlock where
  block : SfcBlock
  lang : Option Str
  src : Option SrcAttr
  deriving Repr, DecidableEq

/-- The script setup block (`ScriptSetupBlock`). -/
structure ScriptSetupBlock where
  block : SfcBlock
  lang : Option Str
  generic : Option Str
  generic_span : Option Span
  deriving Repr, DecidableEq

/-- A style block (`StyleBlock`; the Rust field `module` is named
`css_module` here because `module` is a Lean keyword). -/
structure StyleBlock where
  block : SfcBlock
  lang : Option Str
  «scoped» : Bool
  css_module : Option Str
  src : Option SrcAttr
  deriving Repr, DecidableEq

/-- A custom block (`CustomBlock`). -/
structure CustomBlock where
  block : SfcBlock
  block_type : Str
  deriving Repr, DecidableEq

/-- A root-level comment (`Comment`). -/
structure Comment where
  content : Str
  span : Span
  deriving Repr, DecidableEq

/-- A parsed Vue single file component (`Sfc`). -/
structure Sfc where
  content : Str
  template : Option TemplateBlock
  script : Option ScriptBlock
  script_setup : Option ScriptSetupBlock
  styles : List StyleBlock
  custom_blocks : List CustomBlock
  comments : List Comment
  deriving Repr, DecidableEq

/-- `Sfc::new`. -/
def Sfc.new (content : Str) : Sfc := ⟨content, none, none, none, [], [], []⟩

/-- `Sfc::has_script_setup`. -/
def Sfc.has_script_setup (sfc : Sfc) : Bool := sfc.script_setup.isSome

/-- `Sfc::script_lang`. -/
def Sfc.script_lang (sfc : Sfc) : Option Str :=
  match sfc.script_setup.bind (fun s => s.lang) with
  | some l => some l
  | none => sfc.script.bind (fun s => s.lang)

/-- The SFC lexer: a forward-only cursor over the source (`SfcLexer`). -/
structure SfcLexer where
  source : Str
  pos : Nat
  deriving Repr, DecidableEq

/-- `SfcLexer::remaining`. -/
def SfcLexer.remaining (lx : SfcLexer) : Str := lx.source.drop lx.pos

/-- `SfcLexer::peek_char`. -/
def SfcLexer.peek_char (lx : SfcLexer) : Option Char := lx.remaining.head?

/-- `SfcLexer::next_char` (the consumed character and the advanced lexer). -/
def SfcLexer.next_char (lx : SfcLexer) : Option Char × SfcLexer :=
  match lx.peek_char with
  | none => (none, lx)
  | some c => (some c, { lx with pos := lx.pos + 1 })

/-- `SfcLexer::skip_whitespace` (the byte count it returns is never used). -/
def SfcLexer.skip_whitespace (lx : SfcLexer) : SfcLexer :=
  { lx with pos := lx.pos + countWhile Char.isWhitespace lx.remaining }

/-- `SfcLexer::starts_with`. -/
def SfcLexer.starts_with (lx : SfcLexer) (s : Str) : Bool := s.isPrefixOf lx.remaining

/-- `SfcLexer::consume`. -/
def SfcLexer.consume (lx : SfcLexer) (s : Str) : Bool × SfcLexer :=
  if lx.starts_with s then (true, { lx with pos := lx.pos + s.length }) else (false, lx)

/-- `SfcLexer::consume_while`. -/
def SfcLexer.consume_while (lx : SfcLexer) (p : Char → Bool) : Str × SfcLexer :=
  let n := countWhile p lx.remaining
  (lx.remaining.take n, { lx with pos := lx.pos + n })

/-- `SfcLexer::consume_until`. -/
def SfcLexer.consume_until (lx : SfcLexer) (s : Str) : Str × SfcLexer :=
  let n := countUntil s lx.remaining
  (lx.remaining.take n, { lx with pos := lx.pos + n })

/-- `SfcLexer::read_tag_name`. -/
def SfcLexer.read_tag_name (lx : SfcLexer) : Option Str × SfcLexer :=
  match lx.peek_char with
  | some c =>
    if c.isAlpha || c = '_' then
      let lx1 := (lx.next_char).2
      let (rest, lx2) :=
        lx1.consume_while (fun c => c.isAlphanum || c = '-' || c = '_' || c = ':')
      (some (c :: rest), lx2)
    else (none, lx)
  | none => (none, lx)

/-- `SfcLexer::read_attr_name`. -/
def SfcLexer.read_attr_name (lx : SfcLexer) : Option Str × SfcLexer :=
  match lx.peek_char with
  | some c =>
    if c.isAlpha || c = '_' || c = ':' || c = '@' || c = '#' || c = 'v' then
      let lx1 := (lx.next_char).2
      let (rest, lx2) := lx1.consume_while (fun c =>
        c.isAlphanum || c = '-' || c = '_' || c = ':' || c = '.' || c = '[' || c = ']')
      (some (c :: rest), lx2)
    else (none, lx)
  | none => (none, lx)

/-- Scan of a quoted value after its opening quote: returns the value slice,
the number of characters consumed (value only, not the closing quote), and
whether the closing quote was found. -/
def readQuoted (quote : Char) : Str → (Str × Nat × Bool)
  | [] => ([], 0, false)
  | c :: cs =>
    if c = quote then ([], 0, true)
    else if c = '\\' then
      match cs with
      | [] => ([c], 1, false)
      | c2 :: cs2 =>
        let (v, n, f) := readQuoted quote cs2
        (c :: c2 :: v, n + 2, f)
    else
      let (v, n, f) := readQuoted quote cs
      (c :: v, n + 1, f)

/-- `SfcLexer::read_quoted_string`. -/
def SfcLexer.read_quoted_string (lx : SfcLexer) : Option (Str × Char) × SfcLexer :=
  match lx.peek_char with
  | none => (none, lx)
  | some quote =>
    if quote ≠ '"' ∧ quote ≠ sqc then (none, lx)
    else
      let lx1 := { lx with pos := lx.pos + 1 }
      let (v, n, found) := readQuoted quote lx1.remaining
      if found then (some (v, quote), { lx1 with pos := lx1.pos + n + 1 })
      else (some (v, quote), { lx1 with pos := lx1.pos + n })

/-- `SfcLexer::read_unquoted_value`. -/
def SfcLexer.read_unquoted_value (lx : SfcLexer) : Str × SfcLexer :=
  lx.consume_while (fun c => !c.isWhitespace && c ≠ '>' && c ≠ '/' && c ≠ '=')

/-- `SfcLexer::read_comment`. -/
def SfcLexer.read_comment (lx : SfcLexer) : Option Str × SfcLexer :=
  match lx.consume (str "<!--") with
  | (false, lx1) => (none, lx1)
  | (true, lx1) =>
    let (content, lx2) := lx1.consume_until (str "-->")
    let lx3 := (lx2.consume (str "-->")).2
    (some content, lx3)

/-- Character allowed right after a case-insensitive `</tag` match in
`read_block_content`. -/
def afterCloseOk : Option Char → Bool
  | some '>' => true
  | some ' ' => true
  | some '\t' => true
  | some '\n' => true
  | some '\r' => true
  | none => true
  | some _ => false

/-- Advance count of `read_block_content`: stop before a case-insensitive
`</tag` followed by `>`/whitespace/EOF. -/
def blockContentCount (pattern : Str) : Str → Nat
  | [] => 0
  | c :: cs =>
    if pattern.length ≤ (c :: cs).length ∧
        eqIgnoreAsciiCase ((c :: cs).take pattern.length) pattern = true ∧
        afterCloseOk ((c :: cs).get? pattern.length) = true
    then 0
    else blockContentCount pattern cs + 1

/-- `SfcLexer::read_block_content`. -/
def SfcLexer.read_block_content (lx : SfcLexer) (closing_tag : Str) : Str × SfcLexer :=
  let pattern := '<' :: '/' :: closing_tag
  let n := blockContentCount pattern lx.remaining
  (lx.remaining.take n, { lx with pos := lx.pos + n })

/-- `SfcLexer::is_eof`. -/
def SfcLexer.is_eof (lx : SfcLexer) : Bool := decide (lx.pos ≥ lx.source.length)

/-- `SfcLexer::span_from`. -/
def SfcLexer.span_from (lx : SfcLexer) (start : Nat) : Span := Span.new start lx.pos

/-- `get_attr_value` helper of the SFC parser. -/
def get_attr_value (attrs : List BlockAttr) (name : Str) : Option Str :=
  (attrs.find? (fun a => eqIgnoreAsciiCase a.name name)).bind (fun a => a.value)

/-- `get_attr_value_span` helper of the SFC parser. -/
def get_attr_value_span (attrs : List BlockAttr) (name : Str) : Option Span :=
  (attrs.find? (fun a => eqIgnoreAsciiCase a.name name)).bind (fun a => a.value_span)

/-- `has_attr` helper of the SFC parser. -/
def has_attr (attrs : List BlockAttr) (name : Str) : Bool :=
  attrs.any (fun a => eqIgnoreAsciiCase a.name name)

/-- `get_src_attr` helper of the SFC parser. -/
def get_src_attr (attrs : List BlockAttr) : Option SrcAttr :=
  (attrs.find? (fun a => eqIgnoreAsciiCase a.name (str "src"))).bind (fun a =>
    a.value.map (fun v => ⟨v, a.span, a.value_span.getD a.span⟩))

/-- `SfcParser::parse_attributes` (loop fuel explicit; each iteration advances
the cursor, so `remaining + 1` fuel suffices — see `sfcParseAttributes_ok`). -/
def sfcParseAttributes : Nat → SfcLexer → List BlockAttr →
    Except ParseError (SfcLexer × List BlockAttr)
  | 0, _, _ => .error fuelErr
  | fuel + 1, lx0, acc =>
    let lx := lx0.skip_whitespace
    if lx.starts_with (str ">") || lx.starts_with (str "/>") || lx.is_eof then .ok (lx, acc)
    else
      let attr_start := lx.pos
      match lx.read_attr_name with
      | (none, lx1) => sfcParseAttributes fuel (lx1.next_char).2 acc
      | (some name, lx1) =>
        let lx2 := lx1.skip_whitespace
        match lx2.consume (str "=") with
        | (false, lx3) =>
          sfcParseAttributes fuel lx3 (acc ++ [BlockAttr.boolean name (lx3.span_from attr_start)])
        | (true, lx3) =>
          let lx4 := lx3.skip_whitespace
          if lx4.starts_with (str "\"") || lx4.starts_with [sqc] then
            let value_start := lx4.pos + 1
            match lx4.read_quoted_string with
            | (some (v, _), lx5) =>
              let value_end := lx5.pos - 1
              sfcParseAttributes fuel lx5 (acc ++
                [BlockAttr.with_value name v (lx5.span_from attr_start)
                  (Span.new value_start value_end)])
            | (none, lx5) => sfcParseAttributes fuel lx5 acc
          else
            let value_start := lx4.pos
            let (v, lx5) := lx4.read_unquoted_value
            let value_end := lx5.pos
            sfcParseAttributes fuel lx5 (acc ++
              [BlockAttr.with_value name v (lx5.span_from attr_start)
                (Span.new value_start value_end)])

/-- The `match tag_name.as_str()` routing at the end of
`SfcParser::parse_block`: dispatch the parsed block into the SFC, recording a
`DuplicateBlock` error when a template/script/script-setup slot is taken. -/
def routeBlock (tag_name : Str) (attrs : List BlockAttr) (block : SfcBlock)
    (sfc : Sfc) (errors : List ParseError) : Sfc × List ParseError :=
  if tag_name = str "template" then
    if sfc.template.isSome then
      (sfc, errors ++ [ParseError.duplicate_block (str "template") block.span])
    else
      ({ sfc with template := some ⟨block, get_attr_value attrs (str "lang"),
          has_attr attrs (str "functional"), get_src_attr attrs⟩ }, errors)
  else if tag_name = str "script" then
    let is_setup := has_attr attrs (str "setup")
    if is_setup then
      if sfc.script_setup.isSome then
        (sfc, errors ++ [ParseError.duplicate_block (str "script setup") block.span])
      else
        ({ sfc with script_setup := some ⟨block, get_attr_value attrs (str "lang"),
            get_attr_value attrs (str "generic"), get_attr_value_span attrs (str "generic")⟩ },
          errors)
    else if sfc.script.isSome then
      (sfc, errors ++ [ParseError.duplicate_block (str "script") block.span])
    else
      ({ sfc with script := some ⟨block, get_attr_value attrs (str "lang"),
          get_src_attr attrs⟩ }, errors)
  else if tag_name = str "style" then
    let css_module := if has_attr attrs (str "module") then
        some ((get_attr_value attrs (str "module")).getD (str "$style"))
      else none
    ({ sfc with styles := sfc.styles ++ [⟨block, get_attr_value attrs (str "lang"),
        has_attr attrs (str "scoped"), css_module, get_src_attr attrs⟩] }, errors)
  else
    ({ sfc with custom_blocks := sfc.custom_blocks ++ [⟨block, tag_name⟩] }, errors)

/-- `SfcParser::parse_block` (all its `return` paths are `Ok`). -/
def sfcParseBlock (lx : SfcLexer) (sfc : Sfc) (errors : List ParseError) :
    Except ParseError (SfcLexer × Sfc × List ParseError) :=
  let start := lx.pos
  match lx.consume (str "<") with
  | (false, lx1) => .ok (lx1, sfc, errors)
  | (true, lx1) =>
    let lx2 := lx1.skip_whitespace
    match lx2.read_tag_name with
    | (none, lx3) => .ok (lx3, sfc, errors)
    | (some name, lx3) =>
      let tag_name := lowerStr name
      match sfcParseAttributes (lx3.remaining.length + 1) lx3 [] with
      | .error e => .error e
      | .ok (lx4, attrs) =>
        let lx5 := lx4.skip_whitespace
        let (is_self_closing, lx6) := lx5.consume (str "/>")
        let lx7 := if is_self_closing then lx6 else (lx6.consume (str ">")).2
        let tag_end := lx7.pos
        let res :=
          if is_self_closing then (([] : Str), Span.empty tag_end, lx7)
          else
            let content_start := lx7.pos
            let (content, lx8) := lx7.read_block_content tag_name
            (content, Span.new content_start lx8.pos, lx8)
        let content := res.1
        let content_span := res.2.1
        let lx8 := res.2.2
        let lx9 :=
          if is_self_closing then lx8
          else
            let lxA := lx8.skip_whitespace
            let close_tag := str "</" ++ tag_name
            if close_tag.isPrefixOf (lowerStr lxA.remaining) then
              let lxB := (lxA.consume (str "</" ++ tag_name)).2
              let lxC := if lxB.starts_with (str ">") then lxB
                else (lxB.consume_until (str ">")).2
              (lxC.consume (str ">")).2
            else lxA
        let span := Span.new start lx9.pos
        let block : SfcBlock := ⟨span, content_span, content, attrs⟩
        let routed := routeBlock tag_name attrs block sfc errors
        .ok (lx9, routed.1, routed.2)

/-- The top-level loop of `SfcParser::parse` (fuel explicit; each iteration
advances the cursor, so `length + 1` fuel suffices — see `sfcParseLoop_ok`). -/
def sfcParseLoop : Nat → SfcLexer → Sfc → List ParseError →
    Except ParseError (Sfc × List ParseError)
  | 0, _, _, _ => .error fuelErr
  | fuel + 1, lx, sfc, errors =>
    if lx.is_eof then .ok (sfc, errors)
    else
      let lx1 := lx.skip_whitespace
      if lx1.is_eof then .ok (sfc, errors)
      else if lx1.starts_with (str "<!--") then
        let start := lx1.pos
        match lx1.read_comment with
        | (some content, lx2) =>
          sfcParseLoop fuel lx2
            { sfc with comments := sfc.comments ++ [⟨content, lx2.span_from start⟩] } errors
        | (none, lx2) => sfcParseLoop fuel lx2 sfc errors
      else if lx1.starts_with (str "<") && !(lx1.starts_with (str "</")) then
        match sfcParseBlock lx1 sfc errors with
        | .error e => .error e
        | .ok (lx2, sfc2, errors2) => sfcParseLoop fuel lx2 sfc2 errors2
      else
        sfcParseLoop fuel (lx1.next_char).2 sfc errors

/-- `SfcParser::parse` including the internal error list (the Rust parser
accumulates errors in a field it never reads). -/
def sfcParseFull (source : Str) : Except ParseError (Sfc × List ParseError) :=
  sfcParseLoop (source.length + 1) ⟨source, 0⟩ (Sfc.new source) []

/-- `parse_sfc`: the public entry point returns only the `Sfc`; the
accumulated recoverable errors are dropped (the parser's `errors` field is
dead in the source). -/
def parse_sfc (source : Str) : Except ParseError Sfc :=
  (sfcParseFull source).map Prod.fst

/-- C7: routing a block whose slot is already taken records a
`DuplicateBlock` error for the later occurrence and returns the SFC
completely unchanged (the first block is kept, the later one ignored) — for
`template`, `script setup`, and plain `script` blocks alike. -/
theorem c7_duplicate_block_kept_first (attrs : List BlockAttr) (block : SfcBlock)
    (sfc : Sfc) (errors : List ParseError) :
    (sfc.template.isSome = true →
      routeBlock (str "template") attrs block sfc errors
        = (sfc, errors ++ [ParseError.duplicate_block (str "template") block.span])) ∧
    (has_attr attrs (str "setup") = true → sfc.script_setup.isSome = true →
      routeBlock (str "script") attrs block sfc errors
        = (sfc, errors ++ [ParseError.duplicate_block (str "script setup") block.span])) ∧
    (has_attr attrs (str "setup") = false → sfc.script.isSome = true →
      routeBlock (str "script") attrs block sfc errors
        = (sfc, errors ++ [ParseError.duplicate_block (str "script") block.span])) := by
  have hst : ¬ (str "script" = str "template") := by decide
  refine ⟨?_, ?_, ?_⟩
  · intro h
    simp only [routeBlock, if_pos rfl, h, if_pos]
  · intro hsetup h
    simp only [routeBlock, if_neg hst, if_pos rfl, hsetup, h, if_pos]
  · intro hsetup h
    simp only [routeBlock, if_neg hst, if_pos rfl, hsetup, h, if_pos,
      Bool.false_eq_true, if_neg, not_false_iff]

/-- C7 witness block. -/
def c7block : SfcBlock := ⟨⟨0, 10⟩, ⟨3, 5⟩, str "x", []⟩

/-- C7 witness SFC, with all three single slots occupied. -/
def c7sfc : Sfc :=
  { Sfc.new (str "") with
    template := some ⟨c7block, none, false, none⟩,
    script := some ⟨c7block, none, none⟩,
    script_setup := some ⟨c7block, none, none, none⟩ }

/-- C7 witness: concrete duplicate routings for all three block kinds. -/
theorem c7_witness :
    routeBlock (str "template") [] c7block c7sfc []
      = (c7sfc, [ParseError.duplicate_block (str "template") c7block.span]) ∧
    routeBlock (str "script") [BlockAttr.boolean (str "setup") ⟨0, 0⟩] c7block c7sfc []
      = (c7sfc, [ParseError.duplicate_block (str "script setup") c7block.span]) ∧
    routeBlock (str "script") [] c7block c7sfc []
      = (c7sfc, [ParseError.duplicate_block (str "script") c7block.span]) :=
  ⟨by simpa using (c7_duplicate_block_kept_first [] c7block c7sfc []).1 (by decide),
    by simpa using (c7_duplicate_block_kept_first [BlockAttr.boolean (str "setup") ⟨0, 0⟩]
        c7block c7sfc []).2.1 (by decide) (by decide),
    by simpa using (c7_duplicate_block_kept_first [] c7block c7sfc []).2.2
        (by decide) (by decide)⟩

/-! ## Totality of the SFC parser (C10) -/

theorem countWhile_le (p : Char → Bool) (l : Str) : countWhile p l ≤ l.length := by
  induction l with
  | nil => simp [countWhile]
  | cons c cs ih =>
    simp only [countWhile, List.length_cons]
    split <;> omega

theorem countUntil_le (pat : Str) (l : Str) : countUntil pat l ≤ l.length := by
  induction l with
  | nil => simp [countUntil]
  | cons c cs ih =>
    simp only [countUntil, List.length_cons]
    split <;> omega

theorem countUntilAny_le (pats : List Str) (l : Str) : countUntilAny pats l ≤ l.length := by
  induction l with
  | nil => simp [countUntilAny]
  | cons c cs ih =>
    simp only [countUntilAny, List.length_cons]
    split <;> omega

theorem blockContentCount_le (pat : Str) (l : Str) : blockContentCount pat l ≤ l.length := by
  induction l with
  | nil => simp [blockContentCount]
  | cons c cs ih =>
    simp only [blockContentCount, List.length_cons]
    split <;> omega

theorem readQuoted_le (quote : Char) (l : Str) :
    (readQuoted quote l).2.1 ≤ l.length ∧
      ((readQuoted quote l).2.2 = true → (readQuoted quote l).2.1 < l.length) := by
  induction l using readQuoted.induct quote with
  | case1 => simp [readQuoted]
  | case2 cs2 =>
    rw [readQuoted.eq_def]
    simp
  | case3 h =>
    rw [readQuoted.eq_def]
    simp [h]
  | case4 c2 cs2 v n f hq h ih =>
    have he : readQuoted quote ('\\' :: c2 :: cs2) = ('\\' :: c2 :: v, n + 2, f) := by
      rw [readQuoted.eq_def]
      simp [h, hq]
    rw [he]
    rw [hq] at ih
    simp only [List.length_cons] at ih ⊢
    obtain ⟨ih1, ih2⟩ := ih
    refine ⟨by omega, ?_⟩
    intro hf
    have := ih2 hf
    omega
  | case5 c2 cs2 h1 h2 v n f hq ih =>
    have he : readQuoted quote (c2 :: cs2) = (c2 :: v, n + 1, f) := by
      rw [readQuoted.eq_def]
      simp [h1, h2, hq]
    rw [he]
    rw [hq] at ih
    simp only [List.length_cons] at ih ⊢
    obtain ⟨ih1, ih2⟩ := ih
    refine ⟨by omega, ?_⟩
    intro hf
    have := ih2 hf
    omega

/-- Cursor progress relation: same source, cursor moved forward, still within
the source. -/
def LexLe (a b : SfcLexer) : Prop :=
  b.source = a.source ∧ a.pos ≤ b.pos ∧ b.pos ≤ a.source.length

theorem LexLe.refl {a : SfcLexer} (hp : a.pos ≤ a.source.length) : LexLe a a :=
  ⟨Eq.refl _, le_refl _, hp⟩

theorem LexLe.trans {a b c : SfcLexer} (h1 : LexLe a b) (h2 : LexLe b c) : LexLe a c := by
  obtain ⟨hs1, hp1, hb1⟩ := h1
  obtain ⟨hs2, hp2, hb2⟩ := h2
  refine ⟨hs2.trans hs1, hp1.trans hp2, ?_⟩
  rw [hs1] at hb2
  exact hb2

/-- The end state of a `LexLe` step is itself within bounds. -/
theorem LexLe.inBound {a b : SfcLexer} (h : LexLe a b) : b.pos ≤ b.source.length := by
  rw [h.1]
  exact h.2.2

theorem remaining_length (lx : SfcLexer) : lx.remaining.length = lx.source.length - lx.pos := by
  simp [SfcLexer.remaining]

theorem peek_some_rem_pos {lx : SfcLexer} {c : Char} (h : lx.peek_char = some c) :
    0 < lx.remaining.length := by
  rw [SfcLexer.peek_char] at h
  cases hr : lx.remaining with
  | nil => rw [hr] at h; simp at h
  | cons a as => simp

theorem lexStep {lx : SfcLexer} {n : Nat} (hp : lx.pos ≤ lx.source.length)
    (h : n ≤ lx.remaining.length) : LexLe lx { lx with pos := lx.pos + n } := by
  refine ⟨Eq.refl _, Nat.le_add_right _ _, ?_⟩
  rw [remaining_length] at h
  show lx.pos + n ≤ lx.source.length
  omega

theorem lexLe_skip_whitespace {lx : SfcLexer} (hp : lx.pos ≤ lx.source.length) :
    LexLe lx lx.skip_whitespace :=
  lexStep hp (countWhile_le _ _)

theorem lexLe_consume {lx : SfcLexer} (s : Str) (hp : lx.pos ≤ lx.source.length) :
    LexLe lx (lx.consume s).2 := by
  rw [SfcLexer.consume]
  split
  · next h =>
    exact lexStep hp ((List.isPrefixOf_iff_prefix.mp h).length_le)
  · exact LexLe.refl hp

theorem lexLe_next_char {lx : SfcLexer} (hp : lx.pos ≤ lx.source.length) :
    LexLe lx (lx.next_char).2 := by
  rcases hpk : lx.peek_char with _ | c
  · rw [SfcLexer.next_char, hpk]
    exact LexLe.refl hp
  · rw [SfcLexer.next_char, hpk]
    have h1 : 0 < lx.remaining.length := peek_some_rem_pos hpk
    exact lexStep hp (by omega)

theorem lexLe_consume_while {lx : SfcLexer} (p : Char → Bool)
    (hp : lx.pos ≤ lx.source.length) : LexLe lx (lx.consume_while p).2 :=
  lexStep hp (countWhile_le _ _)

theorem lexLe_consume_until {lx : SfcLexer} (s : Str) (hp : lx.pos ≤ lx.source.length) :
    LexLe lx (lx.consume_until s).2 :=
  lexStep hp (countUntil_le _ _)

theorem lexLe_read_tag_name {lx : SfcLexer} (hp : lx.pos ≤ lx.source.length) :
    LexLe lx (lx.read_tag_name).2 := by
  rcases hpk : lx.peek_char with _ | c
  · rw [SfcLexer.read_tag_name, hpk]
    exact LexLe.refl hp
  · rw [SfcLexer.read_tag_name, hpk]
    dsimp only
    by_cases hcn : (c.isAlpha || decide (c = '_')) = true
    · rw [if_pos hcn]
      have h1 : LexLe lx (lx.next_char).2 := lexLe_next_char hp
      have h2 : LexLe (lx.next_char).2
          ((lx.next_char).2.consume_while
            (fun c => c.isAlphanum || c = '-' || c = '_' || c = ':')).2 :=
        lexLe_consume_while _ h1.inBound
      exact h1.trans h2
    · rw [if_neg hcn]
      exact LexLe.refl hp

theorem lexLe_read_attr_name {lx : SfcLexer} (hp : lx.pos ≤ lx.source.length) :
    LexLe lx (lx.read_attr_name).2 := by
  rcases hpk : lx.peek_char with _ | c
  · rw [SfcLexer.read_attr_name, hpk]
    exact LexLe.refl hp
  · rw [SfcLexer.read_attr_name, hpk]
    dsimp only
    by_cases hcn : (c.isAlpha || decide (c = '_') || decide (c = ':') || decide (c = '@')
        || decide (c = '#') || decide (c = 'v')) = true
    · rw [if_pos hcn]
      have h1 : LexLe lx (lx.next_char).2 := lexLe_next_char hp
      have h2 : LexLe (lx.next_char).2
          ((lx.next_char).2.consume_while (fun c =>
            c.isAlphanum || c = '-' || c = '_' || c = ':' || c = '.' || c = '[' || c = ']')).2 :=
        lexLe_consume_while _ h1.inBound
      exact h1.trans h2
    · rw [if_neg hcn]
      exact LexLe.refl hp

theorem lexLe_read_quoted_string {lx : SfcLexer} (hp : lx.pos ≤ lx.source.length) :
    LexLe lx (lx.read_quoted_string).2 := by
  rcases hpk : lx.peek_char with _ | quote
  · rw [SfcLexer.read_quoted_string, hpk]
    exact LexLe.refl hp
  · rw [SfcLexer.read_quoted_string, hpk]
    dsimp only
    have hrem : 0 < lx.remaining.length := peek_some_rem_pos hpk
    rw [remaining_length] at hrem
    by_cases hqq : quote ≠ '"' ∧ quote ≠ sqc
    · rw [if_pos hqq]
      exact LexLe.refl hp
    · rw [if_neg hqq]
      have hb := readQuoted_le quote ({ lx with pos := lx.pos + 1 } : SfcLexer).remaining
      have hrl : ({ lx with pos := lx.pos + 1 } : SfcLexer).remaining.length
          = lx.source.length - (lx.pos + 1) := remaining_length _
      rcases hq : readQuoted quote ({ lx with pos := lx.pos + 1 } : SfcLexer).remaining
        with ⟨v, n, found⟩
      rw [hq] at hb
      simp only at hb
      dsimp only
      cases found
      · rw [if_neg (by simp)]
        exact ⟨Eq.refl _, by show lx.pos ≤ lx.pos + 1 + n; omega,
          by show lx.pos + 1 + n ≤ lx.source.length; omega⟩
      · rw [if_pos (by simp)]
        have hb2 := hb.2 (Eq.refl _)
        exact ⟨Eq.refl _, by show lx.pos ≤ lx.pos + 1 + n + 1; omega,
          by show lx.pos + 1 + n + 1 ≤ lx.source.length; omega⟩

theorem lexLe_read_unquoted_value {lx : SfcLexer} (hp : lx.pos ≤ lx.source.length) :
    LexLe lx (lx.read_unquoted_value).2 :=
  lexLe_consume_while _ hp

theorem lexLe_read_comment {lx : SfcLexer} (hp : lx.pos ≤ lx.source.length) :
    LexLe lx (lx.read_comment).2 := by
  rw [SfcLexer.read_comment]
  rcases hc : lx.consume (str "<!--") with ⟨ok, lx1⟩
  have h1 : LexLe lx lx1 := by
    have := lexLe_consume (str "<!--") hp
    rw [hc] at this
    exact this
  cases ok
  · exact h1
  · simp only
    have h2 : LexLe lx1 (lx1.consume_until (str "-->")).2 :=
      lexLe_consume_until _ h1.inBound
    have h3 : LexLe (lx1.consume_until (str "-->")).2
        ((lx1.consume_until (str "-->")).2.consume (str "-->")).2 :=
      lexLe_consume _ h2.inBound
    exact (h1.trans h2).trans h3

theorem lexLe_read_block_content {lx : SfcLexer} (tag : Str)
    (hp : lx.pos ≤ lx.source.length) : LexLe lx (lx.read_block_content tag).2 :=
  lexStep hp (blockContentCount_le _ _)

theorem is_eof_false_lt {lx : SfcLexer} (h : lx.is_eof = false) :
    lx.pos < lx.source.length := by
  rw [SfcLexer.is_eof] at h
  simpa using h

theorem next_char_pos {lx : SfcLexer} (h : lx.is_eof = false) :
    (lx.next_char).2 = { lx with pos := lx.pos + 1 } := by
  have hlt := is_eof_false_lt h
  have hrem : 0 < lx.remaining.length := by
    rw [remaining_length]
    omega
  rcases hr : lx.remaining with _ | ⟨a, as⟩
  · rw [hr] at hrem
    simp at hrem
  · have hpk : lx.peek_char = some a := by
      rw [SfcLexer.peek_char, hr]
      rfl
    rw [SfcLexer.next_char, hpk]

theorem consume_of_starts {lx : SfcLexer} {s : Str} (h : lx.starts_with s = true) :
    lx.consume s = (true, { lx with pos := lx.pos + s.length }) := by
  rw [SfcLexer.consume, if_pos h]

theorem read_attr_name_none {lx lx' : SfcLexer} (h : lx.read_attr_name = (none, lx')) :
    lx' = lx := by
  rcases hpk : lx.peek_char with _ | c
  · rw [SfcLexer.read_attr_name, hpk] at h
    exact ((Prod.mk.injEq _ _ _ _ ▸ h).2).symm
  · rw [SfcLexer.read_attr_name, hpk] at h
    dsimp only at h
    by_cases hcn : (c.isAlpha || decide (c = '_') || decide (c = ':') || decide (c = '@')
        || decide (c = '#') || decide (c = 'v')) = true
    · rw [if_pos hcn] at h
      dsimp only [SfcLexer.consume_while] at h
      exact absurd (Prod.mk.injEq _ _ _ _ ▸ h).1 (by simp)
    · rw [if_neg hcn] at h
      exact ((Prod.mk.injEq _ _ _ _ ▸ h).2).symm

theorem read_attr_name_some_pos {lx lx' : SfcLexer} {name : Str}
    (h : lx.read_attr_name = (some name, lx')) : lx.pos + 1 ≤ lx'.pos := by
  rcases hpk : lx.peek_char with _ | c
  · rw [SfcLexer.read_attr_name, hpk] at h
    exact absurd (Prod.mk.injEq _ _ _ _ ▸ h).1 (by simp)
  · rw [SfcLexer.read_attr_name, hpk] at h
    dsimp only at h
    by_cases hcn : (c.isAlpha || decide (c = '_') || decide (c = ':') || decide (c = '@')
        || decide (c = '#') || decide (c = 'v')) = true
    · rw [if_pos hcn] at h
      have hnext : lx.next_char = (some c, { lx with pos := lx.pos + 1 }) := by
        rw [SfcLexer.next_char, hpk]
      rw [hnext] at h
      dsimp only [SfcLexer.consume_while] at h
      have h2 := (Prod.mk.injEq _ _ _ _ ▸ h).2
      subst h2
      exact Nat.le_add_right _ _
    · rw [if_neg hcn] at h
      exact absurd (Prod.mk.injEq _ _ _ _ ▸ h).1 (by simp)

theorem sfcParseAttributes_ok :
    ∀ (fuel : Nat) (lx : SfcLexer) (acc : List BlockAttr),
    lx.pos ≤ lx.source.length →
    lx.source.length - lx.pos < fuel →
    ∃ lx' attrs, sfcParseAttributes fuel lx acc = .ok (lx', attrs) ∧ LexLe lx lx' := by
  intro fuel
  induction fuel with
  | zero =>
    intro lx acc hp hf
    omega
  | succ f ih =>
    intro lx0 acc hp hf
    have hw : LexLe lx0 lx0.skip_whitespace := lexLe_skip_whitespace hp
    simp only [sfcParseAttributes]
    by_cases hbrk : (lx0.skip_whitespace.starts_with (str ">")
        || lx0.skip_whitespace.starts_with (str "/>") || lx0.skip_whitespace.is_eof) = true
    · rw [if_pos hbrk]
      exact ⟨lx0.skip_whitespace, acc, rfl, hw⟩
    · rw [if_neg hbrk]
      have heof : lx0.skip_whitespace.is_eof = false := by
        simp only [Bool.or_eq_true, not_or] at hbrk
        simpa using hbrk.2
      have hlt : lx0.skip_whitespace.pos < lx0.skip_whitespace.source.length :=
        is_eof_false_lt heof
      have hwlt : lx0.skip_whitespace.pos < lx0.source.length := by
        rw [hw.1] at hlt
        exact hlt
      have step : ∀ (lxK : SfcLexer) (accK : List BlockAttr), LexLe lx0 lxK →
          lx0.skip_whitespace.pos + 1 ≤ lxK.pos →
          ∃ lx' attrs, sfcParseAttributes f lxK accK = .ok (lx', attrs) ∧ LexLe lx0 lx' := by
        intro lxK accK hK hKadv
        have h1 := hw.2.1
        have h2 := hK.2.1
        obtain ⟨lx', attrs, hok, hle⟩ := ih lxK accK hK.inBound (by rw [hK.1]; omega)
        exact ⟨lx', attrs, hok, hK.trans hle⟩
      rcases hran : lx0.skip_whitespace.read_attr_name with ⟨nameOpt, lx1⟩
      cases nameOpt with
      | none =>
        dsimp only
        have hlx1 : lx1 = lx0.skip_whitespace := read_attr_name_none hran
        subst hlx1
        rw [next_char_pos heof]
        refine step _ acc ?_ ?_
        · refine hw.trans ⟨Eq.refl _, Nat.le_add_right _ _, ?_⟩
          show lx0.skip_whitespace.pos + 1 ≤ _
          omega
        · exact le_refl _
      | some name =>
        dsimp only
        have hadv : lx0.skip_whitespace.pos + 1 ≤ lx1.pos := read_attr_name_some_pos hran
        have hle1 : LexLe lx0.skip_whitespace lx1 := by
          have := @lexLe_read_attr_name (lx0.skip_whitespace) (by omega)
          rw [hran] at this
          exact this
        have hle01 : LexLe lx0 lx1 := hw.trans hle1
        have hle2 : LexLe lx1 lx1.skip_whitespace := lexLe_skip_whitespace hle01.inBound
        rcases hcons : (lx1.skip_whitespace).consume (str "=") with ⟨cok, lx3⟩
        have hle3 : LexLe lx1.skip_whitespace lx3 := by
          have := @lexLe_consume (lx1.skip_whitespace) (str "=") hle2.inBound
          rw [hcons] at this
          exact this
        have hle03 : LexLe lx0 lx3 := (hle01.trans hle2).trans hle3
        have hadv3 : lx0.skip_whitespace.pos + 1 ≤ lx3.pos :=
          le_trans hadv (le_trans hle2.2.1 hle3.2.1)
        cases cok with
        | false =>
          dsimp only
          exact step _ _ hle03 hadv3
        | true =>
          dsimp only
          have hle4 : LexLe lx3 lx3.skip_whitespace := lexLe_skip_whitespace hle03.inBound
          have hle04 : LexLe lx0 lx3.skip_whitespace := hle03.trans hle4
          have hadv4 : lx0.skip_whitespace.pos + 1 ≤ lx3.skip_whitespace.pos :=
            le_trans hadv3 hle4.2.1
          by_cases hqs : (lx3.skip_whitespace.starts_with (str "\"")
              || lx3.skip_whitespace.starts_with [sqc]) = true
          · rw [if_pos hqs]
            rcases hrq : lx3.skip_whitespace.read_quoted_string with ⟨vOpt, lx5⟩
            have hle5 : LexLe lx3.skip_whitespace lx5 := by
              have := @lexLe_read_quoted_string (lx3.skip_whitespace) hle04.inBound
              rw [hrq] at this
              exact this
            have hle05 : LexLe lx0 lx5 := hle04.trans hle5
            have hadv5 : lx0.skip_whitespace.pos + 1 ≤ lx5.pos :=
              le_trans hadv4 hle5.2.1
            cases vOpt with
            | none =>
              dsimp only
              exact step _ _ hle05 hadv5
            | some vq =>
              rcases vq with ⟨v, q⟩
              dsimp only
              exact step _ _ hle05 hadv5
          · rw [if_neg hqs]
            rcases hru : lx3.skip_whitespace.read_unquoted_value with ⟨v, lx5⟩
            dsimp only
            have hle5 : LexLe lx3.skip_whitespace lx5 := by
              have := @lexLe_read_unquoted_value (lx3.skip_whitespace) hle04.inBound
              rw [hru] at this
              exact this
            exact step _ _ (hle04.trans hle5) (le_trans hadv4 hle5.2.1)

theorem sfcParseBlock_ok (lx : SfcLexer) (sfc : Sfc) (errors : List ParseError)
    (hp : lx.pos ≤ lx.source.length) (hs : lx.starts_with (str "<") = true) :
    ∃ lx' sfc' errs', sfcParseBlock lx sfc errors = .ok (lx', sfc', errs') ∧
      LexLe lx lx' ∧ lx.pos + 1 ≤ lx'.pos := by
  have hone : (str "<").length = 1 := rfl
  have hle1 : LexLe lx { lx with pos := lx.pos + (str "<").length } := by
    have := lexLe_consume (str "<") hp
    rw [consume_of_starts hs] at this
    exact this
  rw [sfcParseBlock, consume_of_starts hs]
  dsimp only
  set lx1 : SfcLexer := { lx with pos := lx.pos + (str "<").length } with hlx1
  have hpos1 : lx1.pos = lx.pos + 1 := by rw [hlx1, hone]
  have hle2 : LexLe lx1 lx1.skip_whitespace := lexLe_skip_whitespace hle1.inBound
  rcases hrtn : lx1.skip_whitespace.read_tag_name with ⟨tagOpt, lx3⟩
  have hle3 : LexLe lx1 lx3 := by
    have := @lexLe_read_tag_name (lx1.skip_whitespace) hle2.inBound
    rw [hrtn] at this
    exact hle2.trans this
  cases tagOpt with
  | none =>
    dsimp only
    exact ⟨lx3, sfc, errors, rfl, hle1.trans hle3, by have h := hle3.2.1; omega⟩
  | some name =>
    dsimp only
    obtain ⟨lx4, attrs, hok, hle4⟩ := sfcParseAttributes_ok (lx3.remaining.length + 1) lx3 []
      hle3.inBound (by rw [remaining_length]; omega)
    rw [hok]
    dsimp only
    have hle14 : LexLe lx1 lx4 := hle3.trans hle4
    have hle5 : LexLe lx4 lx4.skip_whitespace := lexLe_skip_whitespace hle14.inBound
    have hle15 : LexLe lx1 lx4.skip_whitespace := hle14.trans hle5
    rcases hsc : lx4.skip_whitespace.consume (str "/>") with ⟨isc, lx6⟩
    have hle6 : LexLe lx1 lx6 := by
      have := @lexLe_consume (lx4.skip_whitespace) (str "/>") hle15.inBound
      rw [hsc] at this
      exact hle15.trans this
    cases isc with
    | true =>
      dsimp only
      exact ⟨lx6, _, _, rfl, hle1.trans hle6, by have h := hle6.2.1; omega⟩
    | false =>
      dsimp only
      simp only [Bool.false_eq_true, if_false]
      have hle7 : LexLe lx1 (lx6.consume (str ">")).2 :=
        hle6.trans (lexLe_consume _ hle6.inBound)
      set lx7 : SfcLexer := (lx6.consume (str ">")).2 with hlx7
      have hle8 : LexLe lx1 (lx7.read_block_content (lowerStr name)).2 :=
        hle7.trans (lexLe_read_block_content _ hle7.inBound)
      set lx8 : SfcLexer := (lx7.read_block_content (lowerStr name)).2 with hlx8
      have hle9 : LexLe lx1 lx8.skip_whitespace :=
        hle8.trans (lexLe_skip_whitespace hle8.inBound)
      set lxA : SfcLexer := lx8.skip_whitespace with hlxA
      by_cases hcl : (str "</" ++ lowerStr name).isPrefixOf (lowerStr lxA.remaining) = true
      · rw [if_pos hcl]
        have hleB : LexLe lx1 (lxA.consume (str "</" ++ lowerStr name)).2 :=
          hle9.trans (lexLe_consume _ hle9.inBound)
        set lxB : SfcLexer := (lxA.consume (str "</" ++ lowerStr name)).2 with hlxB
        by_cases hgt : lxB.starts_with (str ">") = true
        · rw [if_pos hgt]
          have hleC : LexLe lx1 (lxB.consume (str ">")).2 :=
            hleB.trans (lexLe_consume _ hleB.inBound)
          exact ⟨_, _, _, rfl, hle1.trans hleC, by have := hleC.2.1; omega⟩
        · rw [if_neg hgt]
          have hleC : LexLe lx1 (lxB.consume_until (str ">")).2 :=
            hleB.trans (lexLe_consume_until _ hleB.inBound)
          have hleD : LexLe lx1 ((lxB.consume_until (str ">")).2.consume (str ">")).2 :=
            hleC.trans (lexLe_consume _ hleC.inBound)
          exact ⟨_, _, _, rfl, hle1.trans hleD, by have := hleD.2.1; omega⟩
      · rw [if_neg hcl]
        exact ⟨_, _, _, rfl, hle1.trans hle9, by have := hle9.2.1; omega⟩

theorem read_comment_advance {lx : SfcLexer} (hp : lx.pos ≤ lx.source.length)
    (h : lx.starts_with (str "<!--") = true) :
    lx.pos + 1 ≤ (lx.read_comment).2.pos := by
  rw [SfcLexer.read_comment, consume_of_starts h]
  dsimp only
  set lx1 : SfcLexer := { lx with pos := lx.pos + (str "<!--").length } with hlx1
  have hle1 : LexLe lx lx1 := by
    have := lexLe_consume (str "<!--") hp
    rw [consume_of_starts h] at this
    exact this
  have hle2 : LexLe lx1 (lx1.consume_until (str "-->")).2 :=
    lexLe_consume_until _ hle1.inBound
  have hle3 : LexLe (lx1.consume_until (str "-->")).2
      ((lx1.consume_until (str "-->")).2.consume (str "-->")).2 :=
    lexLe_consume _ hle2.inBound
  have h4 : (str "<!--").length = 4 := rfl
  have hpos1 : lx1.pos = lx.pos + (str "<!--").length := rfl
  have h5 := hle2.2.1
  have h6 := hle3.2.1
  omega

theorem sfcParseLoop_ok :
    ∀ (fuel : Nat) (lx : SfcLexer) (sfc : Sfc) (errors : List ParseError),
    lx.pos ≤ lx.source.length →
    lx.source.length - lx.pos < fuel →
    ∃ sfc' errs', sfcParseLoop fuel lx sfc errors = .ok (sfc', errs') := by
  intro fuel
  induction fuel with
  | zero =>
    intro lx sfc errors hp hf
    omega
  | succ f ih =>
    intro lx sfc errors hp hf
    simp only [sfcParseLoop]
    by_cases he : lx.is_eof = true
    · rw [if_pos he]
      exact ⟨sfc, errors, rfl⟩
    · rw [if_neg he]
      have hw : LexLe lx lx.skip_whitespace := lexLe_skip_whitespace hp
      by_cases he1 : lx.skip_whitespace.is_eof = true
      · rw [if_pos he1]
        exact ⟨sfc, errors, rfl⟩
      · rw [if_neg he1]
        have heof1 : lx.skip_whitespace.is_eof = false := by simpa using he1
        have hlt1 : lx.skip_whitespace.pos < lx.source.length := by
          have := is_eof_false_lt heof1
          rw [hw.1] at this
          exact this
        have step : ∀ (lxK : SfcLexer) (sfcK : Sfc) (errsK : List ParseError), LexLe lx lxK →
            lx.skip_whitespace.pos + 1 ≤ lxK.pos →
            ∃ sfc' errs', sfcParseLoop f lxK sfcK errsK = .ok (sfc', errs') := by
          intro lxK sfcK errsK hK hKadv
          have h1 := hw.2.1
          have h2 := hK.2.1
          exact ih lxK sfcK errsK hK.inBound (by rw [hK.1]; omega)
        by_cases hcm : lx.skip_whitespace.starts_with (str "<!--") = true
        · rw [if_pos hcm]
          rcases hrc : lx.skip_whitespace.read_comment with ⟨cOpt, lx2⟩
          have hleC : LexLe lx.skip_whitespace lx2 := by
            have := @lexLe_read_comment (lx.skip_whitespace) hw.inBound
            rw [hrc] at this
            exact this
          have hadvC : lx.skip_whitespace.pos + 1 ≤ lx2.pos := by
            have := read_comment_advance hw.inBound hcm
            rw [hrc] at this
            exact this
          cases cOpt with
          | some content =>
            dsimp only
            exact step lx2 _ _ (hw.trans hleC) hadvC
          | none =>
            dsimp only
            exact step lx2 _ _ (hw.trans hleC) hadvC
        · rw [if_neg hcm]
          by_cases hbl : (lx.skip_whitespace.starts_with (str "<")
              && !(lx.skip_whitespace.starts_with (str "</"))) = true
          · rw [if_pos hbl]
            have hbs : lx.skip_whitespace.starts_with (str "<") = true := by
              simp only [Bool.and_eq_true] at hbl
              exact hbl.1
            obtain ⟨lx2, sfc2, errs2, hok, hle, hadv⟩ :=
              sfcParseBlock_ok lx.skip_whitespace sfc errors hw.inBound hbs
            rw [hok]
            dsimp only
            exact step lx2 sfc2 errs2 (hw.trans hle) hadv
          · rw [if_neg hbl]
            rw [next_char_pos heof1]
            refine step _ sfc errors (hw.trans ⟨Eq.refl _, Nat.le_add_right _ _, ?_⟩)
              (le_refl _)
            show lx.skip_whitespace.pos + 1 ≤ lx.skip_whitespace.source.length
            rw [hw.1]
            omega

/-- C10: `parse_sfc` returns `Ok` for every input string — the `Err` variant
of its result is never produced — and the recoverable errors accumulated
during parsing are not part of the returned `Sfc` in any form: the public
result is exactly the `Sfc` component of the full parser state, with the
error list dropped. -/
theorem c10_parse_sfc_total (source : Str) :
    ∃ sfc errs, sfcParseFull source = .ok (sfc, errs) ∧ parse_sfc source = .ok sfc := by
  obtain ⟨sfc', errs', hok⟩ := sfcParseLoop_ok (source.length + 1)
    ⟨source, 0⟩ (Sfc.new source) [] (Nat.zero_le _) (by show source.length - 0 < _; omega)
  refine ⟨sfc', errs', hok, ?_⟩
  rw [parse_sfc, sfcParseFull, hok]
  rfl

/-! ## vue-template-compiler crate (`src/crates/vue-template-compiler/src/{error,ast,parser}.rs`) -/

/-- Template compile error codes (`CompileErrorCode`). -/
inductive CompileErrorCode where
  | InvalidDirective
  | InvalidExpression
  | UnexpectedToken
  | UnclosedElement
  | MissingAttribute
  | InvalidSlot
  | InvalidVFor
  | InvalidVModel
  | ComponentResolution
  deriving Repr, DecidableEq

/-- A template compile error (`CompileError`). -/
structure CompileError where
  message : Str
  span : Span
  code : CompileErrorCode
  deriving Repr, DecidableEq

/-- Fuel exhaustion marker for the template parser; also stands for the
divergence of `parse_children` when `parse_node` consumes nothing (a
mismatched `</` loops forever in the source). -/
def tplFuelErr : CompileError := ⟨str "fuel exhausted", Span.empty 0, .UnexpectedToken⟩

/-- An identifier occurrence in an expression (`Identifier`). -/
structure Identifier where
  name : Str
  span : Span
  deriving Repr, DecidableEq

/-- A template expression (`Expression`). -/
structure Expression where
  content : Str
  span : Span
  is_static : Bool
  identifiers : List Identifier
  deriving Repr, DecidableEq

/-- `Expression::new`. -/
def Expression.new (content : Str) (span : Span) : Expression :=
  ⟨content, span, false, []⟩

/-- `Expression::static_expr`. -/
def Expression.static_expr (content : Str) (span : Span) : Expression :=
  ⟨content, span, true, []⟩

/-- A static attribute (`Attribute`). -/
structure Attribute where
  name : Str
  value : Option Str
  span : Span
  value_span : Option Span
  deriving Repr, DecidableEq

/-- A directive argument (`DirectiveArg`). -/
inductive DirectiveArg where
  | Static (name : Str) (span : Span)
  | Dynamic (expr : Expression)
  deriving Repr, DecidableEq

/-- A directive (`Directive`). -/
structure Directive where
  name : Str
  arg : Option DirectiveArg
  modifiers : List Str
  value : Option Expression
  span : Span
  deriving Repr, DecidableEq

/-- A dynamic prop binding (Rust struct `Prop`, renamed: `Prop` is a Lean
keyword). -/
structure PropNode where
  name : Str
  value : Expression
  is_dynamic : Bool
  span : Span
  deriving Repr, DecidableEq

/-- An event listener (`EventListener`). -/
structure EventListener where
  name : Str
  handler : Expression
  is_dynamic : Bool
  modifiers : List Str
  span : Span
  deriving Repr, DecidableEq

/-- An alias in a v-for clause (`ForAlias`). -/
structure ForAlias where
  pattern : Str
  span : Span
  deriving Repr, DecidableEq

/-- Slot props of a scoped slot (`SlotProps`). -/
structure SlotProps where
  pattern : Str
  span : Span
  deriving Repr, DecidableEq

/-- A text node (`TextNode`). -/
structure TextNode where
  content : Str
  span : Span
  deriving Repr, DecidableEq

/-- An interpolation node (`InterpolationNode`). -/
structure InterpolationNode where
  expression : Expression
  span : Span
  deriving Repr, DecidableEq

/-- A comment node (`CommentNode`). -/
structure CommentNode where
  content : Str
  span : Span
  deriving Repr, DecidableEq

/-- Kind of an if branch (`IfBranchType`). -/
inductive IfBranchType where
  | If
  | ElseIf
  | Else
  deriving Repr, DecidableEq

/- The recursive template AST (`TemplateNode`, `ElementNode`, `IfNode`,
`IfBranch`, `ForNode`, `SlotOutletNode`, `TemplateElementNode`, `SlotNode`);
Rust structs become single-constructor inductives in one mutual block, and
the `slots: IndexMap<SmolStr, SlotNode>` field becomes an association list
(the parser always leaves it empty). -/
mutual
inductive TemplateNode where
  | element (e : ElementNode)
  | text (t : TextNode)
  | interpolation (i : InterpolationNode)
  | comment (c : CommentNode)
  | ifNode (i : IfNode)
  | forNode (f : ForNode)
  | slotOutlet (s : SlotOutletNode)
  | template (t : TemplateElementNode)

inductive ElementNode where
  | mk (tag : Str) (is_component : Bool) (attrs : List Attribute)
      (directives : List Directive) (props : List PropNode) (events : List EventListener)
      (children : List TemplateNode) (slots : List (Str × SlotNode))
      (self_closing : Bool) (span : Span) (tag_span : Span)

inductive IfNode where
  | mk (branches : List IfBranch) (span : Span)

inductive IfBranch where
  | mk (condition : Option Expression) (branch_type : IfBranchType)
      (children : List TemplateNode) (span : Span)

inductive ForNode where
  | mk (source : Expression) (value : ForAlias) (key : Option ForAlias)
      (index : Option ForAlias) (children : List TemplateNode)
      (key_attr : Option Expression) (span : Span)

inductive SlotOutletNode where
  | mk (name : Expression) (props : List PropNode) (fallback : List TemplateNode)
      (span : Span)

inductive TemplateElementNode where
  | mk (directives : List Directive) (children : List TemplateNode) (span : Span)

inductive SlotNode where
  | mk (name : Str) (props : Option SlotProps) (children : List TemplateNode) (span : Span)
end

def ElementNode.tag : ElementNode → Str
  | .mk t _ _ _ _ _ _ _ _ _ _ => t

def ElementNode.is_component : ElementNode → Bool
  | .mk _ c _ _ _ _ _ _ _ _ _ => c

def ElementNode.attrs : ElementNode → List Attribute
  | .mk _ _ a _ _ _ _ _ _ _ _ => a

def ElementNode.directives : ElementNode → List Directive
  | .mk _ _ _ d _ _ _ _ _ _ _ => d

def ElementNode.props : ElementNode → List PropNode
  | .mk _ _ _ _ p _ _ _ _ _ _ => p

def ElementNode.events : ElementNode → List EventListener
  | .mk _ _ _ _ _ e _ _ _ _ _ => e

def ElementNode.children : ElementNode → List TemplateNode
  | .mk _ _ _ _ _ _ c _ _ _ _ => c

def ElementNode.slots : ElementNode → List (Str × SlotNode)
  | .mk _ _ _ _ _ _ _ s _ _ _ => s

def IfNode.branches : IfNode → List IfBranch
  | .mk b _ => b

def IfBranch.condition : IfBranch → Option Expression
  | .mk c _ _ _ => c

def IfBranch.branch_type : IfBranch → IfBranchType
  | .mk _ t _ _ => t

def IfBranch.children : IfBranch → List TemplateNode
  | .mk _ _ c _ => c

def ForNode.source : ForNode → Expression
  | .mk s _ _ _ _ _ _ => s

def ForNode.value : ForNode → ForAlias
  | .mk _ v _ _ _ _ _ => v

def ForNode.key : ForNode → Option ForAlias
  | .mk _ _ k _ _ _ _ => k

def ForNode.index : ForNode → Option ForAlias
  | .mk _ _ _ i _ _ _ => i

def ForNode.children : ForNode → List TemplateNode
  | .mk _ _ _ _ c _ _ => c

def ForNode.key_attr : ForNode → Option Expression
  | .mk _ _ _ _ _ k _ => k

def ForNode.span : ForNode → Span
  | .mk _ _ _ _ _ _ s => s

def SlotOutletNode.name : SlotOutletNode → Expression
  | .mk n _ _ _ => n

def SlotOutletNode.props : SlotOutletNode → List PropNode
  | .mk _ p _ _ => p

def SlotOutletNode.fallback : SlotOutletNode → List TemplateNode
  | .mk _ _ f _ => f

def TemplateElementNode.directives : TemplateElementNode → List Directive
  | .mk d _ _ => d

def TemplateElementNode.children : TemplateElementNode → List TemplateNode
  | .mk _ c _ => c

/-- A template root scope variable (template-compiler `ScopeVar`). -/
structure AstScopeVar where
  name : Str
  source : Str
  span : Span
  deriving Repr, DecidableEq

/-- The root of a parsed template (`TemplateAst`). -/
structure TemplateAst where
  children : List TemplateNode
  hoists : List TemplateNode
  scope_vars : List AstScopeVar
  span : Span

/-- `TemplateAst::with_children`. -/
def TemplateAst.with_children (children : List TemplateNode) (span : Span) : TemplateAst :=
  ⟨children, [], [], span⟩

/-- Element categorisation (`ElementType`). -/
inductive ElementType where
  | Element
  | Component
  | Builtin
  deriving Repr, DecidableEq

/-- `get_element_type`. -/
def get_element_type (tag : Str) : ElementType :=
  if tag = str "template" ∨ tag = str "slot" ∨ tag = str "component" ∨
      tag = str "keep-alive" ∨ tag = str "transition" ∨ tag = str "transition-group" ∨
      tag = str "teleport" ∨ tag = str "suspense" then
    .Builtin
  else if ((match tag.head? with | some c => c.isUpper | none => false) || tag.contains '-') then
    .Component
  else .Element

/-- `is_void_element`. -/
def is_void_element (tag : Str) : Bool :=
  let t := lowerStr tag
  t = str "area" ∨ t = str "base" ∨ t = str "br" ∨ t = str "col" ∨ t = str "embed" ∨
    t = str "hr" ∨ t = str "img" ∨ t = str "input" ∨ t = str "link" ∨ t = str "meta" ∨
    t = str "param" ∨ t = str "source" ∨ t = str "track" ∨ t = str "wbr"

/-- The template parser cursor (`TemplateParser`; its `errors` field is dead
in the source — nothing ever pushes to it — and is omitted). -/
structure TplState where
  source : Str
  pos : Nat
  deriving Repr, DecidableEq

/-- `TemplateParser::remaining`. -/
def TplState.remaining (st : TplState) : Str := st.source.drop st.pos

/-- `TemplateParser::is_eof`. -/
def TplState.is_eof (st : TplState) : Bool := decide (st.pos ≥ st.source.length)

/-- `TemplateParser::peek`. -/
def TplState.peek (st : TplState) : Option Char := st.remaining.head?

/-- `TemplateParser::advance`. -/
def TplState.advance (st : TplState) : Option Char × TplState :=
  match st.peek with
  | none => (none, st)
  | some c => (some c, { st with pos := st.pos + 1 })

/-- `TemplateParser::starts_with`. -/
def TplState.starts_with (st : TplState) (s : Str) : Bool := s.isPrefixOf st.remaining

/-- `TemplateParser::consume`. -/
def TplState.consume (st : TplState) (s : Str) : Bool × TplState :=
  if st.starts_with s then (true, { st with pos := st.pos + s.length }) else (false, st)

/-- `TemplateParser::skip_whitespace`. -/
def TplState.skip_whitespace (st : TplState) : TplState :=
  { st with pos := st.pos + countWhile Char.isWhitespace st.remaining }

/-- `TemplateParser::read_while`. -/
def TplState.read_while (st : TplState) (p : Char → Bool) : Str × TplState :=
  let n := countWhile p st.remaining
  (st.remaining.take n, { st with pos := st.pos + n })

/-- `TemplateParser::read_until`. -/
def TplState.read_until (st : TplState) (s : Str) : Str × TplState :=
  let n := countUntil s st.remaining
  (st.remaining.take n, { st with pos := st.pos + n })

/-- `TemplateParser::parse_comment` (its only path is `Ok`). -/
def tplParseComment (st : TplState) : CommentNode × TplState :=
  let start := st.pos
  let st1 := (st.consume (str "<!--")).2
  let (content, st2) := st1.read_until (str "-->")
  let st3 := (st2.consume (str "-->")).2
  (⟨content, Span.new start st3.pos⟩, st3)

/-- `TemplateParser::parse_interpolation` (its only path is `Ok`); note the
expression content is trimmed but the expression span is the untrimmed
region between the braces. -/
def tplParseInterpolation (st : TplState) : InterpolationNode × TplState :=
  let start := st.pos
  let st1 := (st.consume (str "\x7b\x7b")).2
  let expr_start := st1.pos
  let (raw, st2) := st1.read_until (str "\x7d\x7d")
  let content := trimStr raw
  let expr_end := st2.pos
  let st3 := (st2.consume (str "\x7d\x7d")).2
  let span := Span.new start st3.pos
  let expr_span := Span.new expr_start expr_end
  (⟨Expression.new content expr_span, span⟩, st3)

/-- `TemplateParser::parse_text` (its only path is `Ok`). -/
def tplParseText (st : TplState) : TextNode × TplState :=
  let start := st.pos
  let n := countUntilAny [str "<", str "\x7b\x7b"] st.remaining
  let content := st.remaining.take n
  let st1 : TplState := { st with pos := st.pos + n }
  (⟨content, Span.new start st1.pos⟩, st1)

/-- `TemplateParser::parse_v_for_expression` (pure). -/
def parse_v_for_expression (expr : Str) (span : Span) : Except CompileError ForNode :=
  let expr := trimStr expr
  let parts? : Option (Str × Str) :=
    match findSubIdx (str " in ") expr with
    | some in_pos => some (expr.take in_pos, expr.drop (in_pos + 4))
    | none =>
      match findSubIdx (str " of ") expr with
      | some of_pos => some (expr.take of_pos, expr.drop (of_pos + 4))
      | none => none
  match parts? with
  | none => .error ⟨str "Invalid v-for expression", span, .InvalidVFor⟩
  | some (alias_raw, source_raw) =>
    let alias_part := trimStr alias_raw
    let source_part := trimStr source_raw
    let aliases? : Except CompileError (ForAlias × Option ForAlias × Option ForAlias) :=
      if alias_part.head? = some '(' ∧ alias_part.getLast? = some ')' then
        let inner := (alias_part.drop 1).take (alias_part.length - 2)
        let parts := (inner.splitOn ',').map trimStr
        match parts with
        | [p1] => .ok (⟨p1, span⟩, none, none)
        | [p1, p2] => .ok (⟨p1, span⟩, some ⟨p2, span⟩, none)
        | [p1, p2, p3] => .ok (⟨p1, span⟩, some ⟨p2, span⟩, some ⟨p3, span⟩)
        | _ => .error ⟨str "Invalid v-for aliases", span, .InvalidVFor⟩
      else .ok (⟨alias_part, span⟩, none, none)
    match aliases? with
    | .error e => .error e
    | .ok (value, key, index) =>
      .ok (.mk (Expression.new source_part span) value key index [] none span)

/-- `parse_prop_name`. -/
def parse_prop_name (name : Str) : Str × Bool :=
  if name.head? = some '[' ∧ name.getLast? = some ']' then
    ((name.drop 1).take (name.length - 2), true)
  else
    (((name.splitOn '.').head?).getD name, false)

/-- `parse_event_with_modifiers`. -/
def parse_event_with_modifiers (name : Str) : Str × List Str :=
  let parts := name.splitOn '.'
  if parts.length > 1 then (parts.headD [], parts.tail)
  else (name, [])

/-- `TemplateParser::parse_directive` (pure; its only path is `Ok`). -/
def parse_directive (name_with_mods : Str) (value : Option (Str × Span)) (span : Span) :
    Directive :=
  let parts := name_with_mods.splitOn '.'
  let name_and_arg := parts.headD []
  let modifiers := parts.tail
  let na : Str × Option DirectiveArg :=
    match findSubIdx (str ":") name_and_arg with
    | some colon_pos =>
      let name := name_and_arg.take colon_pos
      let arg_str := name_and_arg.drop (colon_pos + 1)
      let arg :=
        if arg_str.head? = some '[' ∧ arg_str.getLast? = some ']' then
          DirectiveArg.Dynamic (Expression.new ((arg_str.drop 1).take (arg_str.length - 2)) span)
        else DirectiveArg.Static arg_str span
      (name, some arg)
    | none => (name_and_arg, none)
  ⟨na.1, na.2, modifiers, value.map (fun vs => Expression.new vs.1 vs.2), span⟩

/-- `TemplateParser::parse_attribute_value` (its only path is `Ok`). -/
def tplParseAttributeValue (st : TplState) : (Str × Span) × TplState :=
  let start := st.pos
  if st.starts_with (str "\"") || st.starts_with [sqc] then
    match st.advance with
    | (some quote, st1) =>
      let value_start := st1.pos
      let (value, st2) := st1.read_while (fun c => ¬ (c = quote))
      let value_end := st2.pos
      let st3 := (st2.advance).2
      ((value, Span.new value_start value_end), st3)
    | (none, st1) => ((([] : Str), Span.new start st1.pos), st1)
  else
    let (value, st1) := st.read_while (fun c => !c.isWhitespace && c ≠ '>' && c ≠ '/')
    ((value, Span.new start st1.pos), st1)

/-- Accumulated attribute classification buckets of
`TemplateParser::parse_attributes`. -/
structure AttrBuckets where
  attrs : List Attribute
  directives : List Directive
  props : List PropNode
  events : List EventListener
  deriving Repr, DecidableEq

/-- The per-attribute classification of `TemplateParser::parse_attributes`
(the `if let Some(..) = name.strip_prefix(..)` cascade). -/
def classifyAttr (b : AttrBuckets) (name : Str) (value : Option (Str × Span)) (span : Span) :
    AttrBuckets :=
  if (str "v-").isPrefixOf name then
    let directive := parse_directive (name.drop (str "v-").length) value span
    { b with directives := b.directives ++ [directive] }
  else if name.head? = some ':' ∨ (str "v-bind:").isPrefixOf name then
    let prop_raw := if name.head? = some ':' then name.drop 1
      else name.drop (str "v-bind:").length
    let pn := parse_prop_name prop_raw
    match value with
    | some (val, val_span) =>
      { b with props := b.props ++ [⟨pn.1, Expression.new val val_span, pn.2, span⟩] }
    | none => b
  else if name.head? = some '@' ∨ (str "v-on:").isPrefixOf name then
    let event_raw := if name.head? = some '@' then name.drop 1
      else name.drop (str "v-on:").length
    let em := parse_event_with_modifiers event_raw
    let event_name := em.1
    let modifiers := em.2
    let is_dynamic := event_name.head? = some '[' ∧ event_name.getLast? = some ']'
    let clean_name := if is_dynamic then (event_name.drop 1).take (event_name.length - 2)
      else event_name
    match value with
    | some (val, val_span) =>
      { b with events := b.events ++
          [⟨clean_name, Expression.new val val_span, decide is_dynamic, modifiers, span⟩] }
    | none => b
  else if name.head? = some '#' then
    let slot_name := name.drop 1
    let arg :=
      if slot_name.head? = some '[' ∧ slot_name.getLast? = some ']' then
        DirectiveArg.Dynamic (Expression.new ((slot_name.drop 1).take (slot_name.length - 2)) span)
      else DirectiveArg.Static slot_name span
    { b with directives := b.directives ++
        [⟨str "slot", some arg, [], value.map (fun vs => Expression.new vs.1 vs.2), span⟩] }
  else
    { b with attrs := b.attrs ++ [⟨name, value.map Prod.fst, span, value.map Prod.snd⟩] }

/-- `TemplateParser::parse_attributes` (loop fuel explicit). -/
def tplParseAttributes : Nat → TplState → AttrBuckets →
    Except CompileError (AttrBuckets × TplState)
  | 0, _, _ => .error tplFuelErr
  | fuel + 1, st0, b =>
    let st := st0.skip_whitespace
    if st.is_eof || st.starts_with (str ">") || st.starts_with (str "/>") then .ok (b, st)
    else
      let attr_start := st.pos
      let (name, st1) := st.read_while (fun c =>
        c.isAlphanum || c = '-' || c = '_' || c = ':' || c = '.'
          || c = '@' || c = '#' || c = '[' || c = ']')
      if name.isEmpty then tplParseAttributes fuel (st1.advance).2 b
      else
        let st2 := st1.skip_whitespace
        match st2.consume (str "=") with
        | (true, st3) =>
          let st4 := st3.skip_whitespace
          let (vs, st5) := tplParseAttributeValue st4
          let span := Span.new attr_start st5.pos
          tplParseAttributes fuel st5 (classifyAttr b name (some vs) span)
        | (false, st3) =>
          let span := Span.new attr_start st3.pos
          tplParseAttributes fuel st3 (classifyAttr b name none span)

/-- `TemplateParser::create_element_node`. -/
def create_element_node (tag : Str) (tag_span : Span) (attrs : List Attribute)
    (directives : List Directive) (props : List PropNode) (events : List EventListener)
    (children : List TemplateNode) (self_closing : Bool) (span : Span) : TemplateNode :=
  let is_component := get_element_type tag = ElementType.Component
  .element (.mk tag is_component attrs directives props events children []
    self_closing span tag_span)

/-- The non-`v-for` remainder of the structural dispatch at the end of
`TemplateParser::parse_element` (v-if/v-else-if/v-else wrapping, `slot`,
`template` with `v-slot`, plain element). -/
def liftElementRest (tag : Str) (tag_span : Span) (attrs : List Attribute)
    (directives : List Directive) (props : List PropNode) (events : List EventListener)
    (children : List TemplateNode) (self_closing : Bool) (span : Span) : TemplateNode :=
  let v_if := directives.find? (fun d => d.name == str "if")
  let v_else_if := directives.find? (fun d => d.name == str "else-if")
  let v_else := directives.find? (fun d => d.name == str "else")
  if v_if.isSome || v_else_if.isSome || v_else.isSome then
    let bc : IfBranchType × Option Expression :=
      match v_if with
      | some dir => (.If, dir.value)
      | none =>
        match v_else_if with
        | some dir => (.ElseIf, dir.value)
        | none => (.Else, none)
    let filtered_directives := directives.filter (fun d =>
      ¬ (d.name == str "if") ∧ ¬ (d.name == str "else-if") ∧ ¬ (d.name == str "else"))
    let element_node := create_element_node tag tag_span attrs filtered_directives
      props events children self_closing span
    .ifNode (.mk [.mk bc.2 bc.1 [element_node] span] span)
  else if tag = str "slot" then
    let name_expr := ((props.find? (fun p => p.name == str "name")).map
      (fun p => p.value)).getD (Expression.static_expr (str "default") span)
    .slotOutlet (.mk name_expr (props.filter (fun p => ¬ (p.name == str "name")))
      children span)
  else if tag = str "template" ∧
      (directives.find? (fun d => d.name == str "slot")).isSome then
    .template (.mk directives children span)
  else
    create_element_node tag tag_span attrs directives props events children self_closing span

/-- The structural dispatch at the end of `TemplateParser::parse_element`:
when the first directive named `for` carries a value, the element is lifted
into a `For` node (with the `for` directives filtered out of the wrapped
element and `key_attr` copied from a `:key` prop); otherwise control falls
through to the v-if/slot/template/plain cases. -/
def liftElement (tag : Str) (tag_span : Span) (attrs : List Attribute)
    (directives : List Directive) (props : List PropNode) (events : List EventListener)
    (children : List TemplateNode) (self_closing : Bool) (span : Span) :
    Except CompileError TemplateNode :=
  match directives.find? (fun d => d.name == str "for") with
  | some dir =>
    match dir.value with
    | some value =>
      match parse_v_for_expression value.content value.span with
      | .error e => .error e
      | .ok for_node =>
        let key_attr := (props.find? (fun p => p.name == str "key")).map (fun p => p.value)
        let child := create_element_node tag tag_span attrs
          (directives.filter (fun d => ¬ (d.name == str "for"))) props events
          children self_closing span
        .ok (.forNode (.mk for_node.source for_node.value for_node.key for_node.index
          [child] key_attr span))
    | none =>
      .ok (liftElementRest tag tag_span attrs directives props events children
        self_closing span)
  | none =>
    .ok (liftElementRest tag tag_span attrs directives props events children
      self_closing span)

/-- The end-tag test of `TemplateParser::parse_children`: the remaining input
starts with `</` and the following word (up to whitespace or `>`) equals the
current end tag, ASCII-case-insensitively. -/
def endTagMatches (st : TplState) (tag : Str) : Bool :=
  st.starts_with (str "</") &&
    eqIgnoreAsciiCase
      ((st.remaining.drop 2).takeWhile (fun c => !(c.isWhitespace || c = '>'))) tag

mutual
/-- `TemplateParser::parse_children` (loop fuel explicit). -/
def tplParseChildren : Nat → TplState → Option Str →
    Except CompileError (List TemplateNode × TplState)
  | 0, _, _ => .error tplFuelErr
  | fuel + 1, st, end_tag =>
    if st.is_eof then .ok ([], st)
    else if (match end_tag with
        | some tag => endTagMatches st tag
        | none => false) then .ok ([], st)
    else
      match tplParseNode fuel st with
      | .error e => .error e
      | .ok (nodeOpt, st1) =>
        match tplParseChildren fuel st1 end_tag with
        | .error e => .error e
        | .ok (rest, st2) =>
          match nodeOpt with
          | some node => .ok (node :: rest, st2)
          | none => .ok (rest, st2)

/-- `TemplateParser::parse_node`. -/
def tplParseNode : Nat → TplState → Except CompileError (Option TemplateNode × TplState)
  | 0, _ => .error tplFuelErr
  | fuel + 1, st =>
    if st.starts_with (str "<!--") then
      let (c, st1) := tplParseComment st
      .ok (some (.comment c), st1)
    else if st.starts_with (str "</") then .ok (none, st)
    else if st.starts_with (str "<") then
      match tplParseElement fuel st with
      | .error e => .error e
      | .ok (node, st1) => .ok (some node, st1)
    else if st.starts_with (str "\x7b\x7b") then
      let (i, st1) := tplParseInterpolation st
      .ok (some (.interpolation i), st1)
    else
      let (t, st1) := tplParseText st
      .ok (some (.text t), st1)

/-- `TemplateParser::parse_element`. -/
def tplParseElement : Nat → TplState → Except CompileError (TemplateNode × TplState)
  | 0, _ => .error tplFuelErr
  | fuel + 1, st0 =>
    let start := st0.pos
    let st1 := (st0.consume (str "<")).2
    let st2 := st1.skip_whitespace
    let tag_start := st2.pos
    let rw := st2.read_while (fun c => c.isAlphanum || c = '-' || c = '_' || c = ':')
    let tag := rw.1
    let st3 := rw.2
    let tag_span := Span.new tag_start st3.pos
    if tag.isEmpty then
      .error ⟨str "Expected tag name", Span.new start st3.pos, .UnexpectedToken⟩
    else
      match tplParseAttributes (st3.remaining.length + 1) st3 ⟨[], [], [], []⟩ with
      | .error e => .error e
      | .ok (b, st4) =>
        let st5 := st4.skip_whitespace
        let sc := st5.consume (str "/>")
        let self_closing := sc.1
        let st6 := sc.2
        let st7 := if self_closing then st6 else (st6.consume (str ">")).2
        let is_void := is_void_element tag
        match (if self_closing || is_void then .ok ([], st7)
            else tplParseChildren fuel st7 (some tag)) with
        | .error e => .error e
        | .ok (children, st8) =>
          let st9 :=
            if !self_closing && !is_void then
              let stA := st8.skip_whitespace
              if stA.starts_with (str "</") then
                let stB := (stA.consume (str "</")).2
                let stC := stB.skip_whitespace
                let stD := (stC.read_while (fun c =>
                  c.isAlphanum || c = '-' || c = '_' || c = ':')).2
                let stE := stD.skip_whitespace
                (stE.consume (str ">")).2
              else stA
            else st8
          let span := Span.new start st9.pos
          match liftElement tag tag_span b.attrs b.directives b.props b.events
              children self_closing span with
          | .error e => .error e
          | .ok node => .ok (node, st9)
end

/-- `TemplateParser::parse` / `parse_template`: parse children to EOF.  The
fuel is generous for the inputs below; fuel exhaustion also stands for the
divergence of `parse_children` on inputs where `parse_node` consumes
nothing. -/
def parse_template (source : Str) : Except CompileError TemplateAst :=
  match tplParseChildren (4 * source.length + 16) ⟨source, 0⟩ none with
  | .error e => .error e
  | .ok (children, _) => .ok (TemplateAst.with_children children (Span.new 0 source.length))

/-- Does some top-level `Element` node still carry a directive named `for`
with a value? -/
def hasTopValuedForElement (ast : TemplateAst) : Bool :=
  ast.children.any (fun n =>
    match n with
    | .element e => e.directives.any (fun d => d.name == str "for" && d.value.isSome)
    | _ => false)

/-- Is some top-level node a `For` node? -/
def hasTopForNode (ast : TemplateAst) : Bool :=
  ast.children.any (fun n =>
    match n with
    | .forNode _ => true
    | _ => false)

/-- C5 counterexample: the element `<div v-for v-for="x in y"></div>` carries
the directive `v-for="x in y"`, yet the parsed tree keeps it as a plain
`Element` still bearing that valued `for` directive and produces no `For`
node: `find` picks the first (valueless) `for` directive, so lifting is
skipped. -/
theorem c5_counterexample :
    (parse_template (str "<div v-for v-for=\"x in y\"></div>")).toOption.map
      (fun ast => (hasTopValuedForElement ast, hasTopForNode ast)) = some (true, false) := by
  rfl

/-- C5 (amended): whenever the FIRST directive named `for` on a parsed
element carries the value `x in y` (in particular whenever `v-for="x in y"`
is the element's only `for` directive), the structural dispatch produces a
`For` node with `value.pattern = "x"` and `source.content = "y"` whose single
child is the former element with every `for` directive removed. -/
theorem c5_lift_v_for (tag : Str) (tag_span : Span) (attrs : List Attribute)
    (directives : List Directive) (props : List PropNode) (events : List EventListener)
    (children : List TemplateNode) (self_closing : Bool) (span : Span)
    (d : Directive) (vspan : Span)
    (hfind : directives.find? (fun d => d.name == str "for") = some d)
    (hval : d.value = some (Expression.new (str "x in y") vspan)) :
    liftElement tag tag_span attrs directives props events children self_closing span
      = .ok (.forNode (.mk (Expression.new (str "y") vspan) ⟨str "x", vspan⟩ none none
          [create_element_node tag tag_span attrs
            (directives.filter (fun d => ¬ (d.name == str "for"))) props events
            children self_closing span]
          ((props.find? (fun p => p.name == str "key")).map (fun p => p.value)) span)) := by
  have hvfe : parse_v_for_expression (str "x in y") vspan
      = .ok (.mk (Expression.new (str "y") vspan) ⟨str "x", vspan⟩ none none [] none vspan) :=
    rfl
  simp only [liftElement, hfind, hval, Expression.new, hvfe]
  rfl

/-- C5 witness directive `v-for="x in y"`. -/
def c5dir : Directive :=
  ⟨str "for", none, [], some (Expression.new (str "x in y") ⟨11, 17⟩), ⟨5, 18⟩⟩

/-- C5 witness: the lifting theorem applied to a concrete `div` element whose
only directive is `v-for="x in y"`. -/
theorem c5_witness :
    ([c5dir].find? (fun d => d.name == str "for") = some c5dir) ∧
    (c5dir.value = some (Expression.new (str "x in y") ⟨11, 17⟩)) ∧
    liftElement (str "div") ⟨1, 4⟩ [] [c5dir] [] [] [] false ⟨0, 32⟩
      = .ok (.forNode (.mk (Expression.new (str "y") ⟨11, 17⟩) ⟨str "x", ⟨11, 17⟩⟩ none none
          [create_element_node (str "div") ⟨1, 4⟩ []
            ([c5dir].filter (fun d => ¬ (d.name == str "for"))) [] [] [] false ⟨0, 32⟩]
          (([] : List PropNode).find? (fun p => p.name == str "key")
            |>.map (fun p => p.value)) ⟨0, 32⟩)) :=
  ⟨by decide, by decide,
    c5_lift_v_for (str "div") ⟨1, 4⟩ [] [c5dir] [] [] [] false ⟨0, 32⟩ c5dir ⟨11, 17⟩
      (by decide) (by decide)⟩

/-- C6 counterexample: on the input `<!` (a stray angle bracket followed by a
non-tag character) `parse_template` aborts the whole document with an `Err`:
the empty-tag-name error produced inside `parse_element` propagates through
`parse_node` and `parse_children` to the caller, so the parser is not total. -/
theorem c6_counterexample :
    parse_template (str "<!")
      = .error ⟨str "Expected tag name", Span.new 0 1, .UnexpectedToken⟩ := by
  rfl

/-- C6 (amended): `parse_template` fails on any document that begins with `<`
followed by a character that cannot start a tag name (not alphanumeric, `-`,
`_` or `:`), does not open a comment (`!`) or a closing tag (`/`), and is not
whitespace: the result is `Err` with message `Expected tag name`, span `[0,1)`
and code `UnexpectedToken`, rather than a recovered tree. -/
theorem c6_stray_angle_error (c : Char) (rest : Str)
    (hb : c ≠ '!') (hs : c ≠ '/') (hw : c.isWhitespace = false)
    (ht : (c.isAlphanum || c = '-' || c = '_' || c = ':') = false) :
    parse_template ('<' :: c :: rest)
      = .error ⟨str "Expected tag name", Span.new 0 1, .UnexpectedToken⟩ := by
  have e1 : (List.isPrefixOf (str "<") (List.drop 0 ('<' :: c :: rest))) = true := rfl
  have hbc : ('!' == c) = false := beq_eq_false_iff_ne.mpr (Ne.symm hb)
  have hsc : ('/' == c) = false := beq_eq_false_iff_ne.mpr (Ne.symm hs)
  have e3 : List.isPrefixOf (str "<!--") (List.drop 0 ('<' :: c :: rest)) = false := by
    show List.isPrefixOf ['<', '!', '-', '-'] ('<' :: c :: rest) = false
    simp [List.isPrefixOf, hbc]
  have e4 : List.isPrefixOf (str "</") (List.drop 0 ('<' :: c :: rest)) = false := by
    show List.isPrefixOf ['<', '/'] ('<' :: c :: rest) = false
    simp [List.isPrefixOf, hsc]
  have hel : ∀ k : Nat, tplParseElement (k + 1) ⟨'<' :: c :: rest, 0⟩
      = .error ⟨str "Expected tag name", Span.new 0 1, .UnexpectedToken⟩ := by
    intro k
    simp only [tplParseElement]
    simp only [TplState.consume, TplState.starts_with, TplState.remaining,
      TplState.skip_whitespace, TplState.read_while, countWhile]
    simp only [e1, eq_self_iff_true, if_true, hw, Bool.false_eq_true, if_false]
    have e2 : (0 + List.length (str "<") + 0) = 1 := rfl
    simp only [e2, List.drop_succ_cons, List.drop_zero, countWhile, ht, Bool.false_eq_true,
      if_false, Nat.add_zero, List.take_zero, List.isEmpty_nil, if_true]
  have hnode : ∀ k : Nat, tplParseNode (k + 2) ⟨'<' :: c :: rest, 0⟩
      = .error ⟨str "Expected tag name", Span.new 0 1, .UnexpectedToken⟩ := by
    intro k
    simp only [tplParseNode]
    simp only [TplState.starts_with, TplState.remaining]
    simp only [e3, e4, e1, Bool.false_eq_true, if_false, if_true]
    rw [hel k]
  have e6 : (⟨'<' :: c :: rest, 0⟩ : TplState).is_eof = false := by
    simp [TplState.is_eof]
  have e5 : 4 * ('<' :: c :: rest).length + 16 = (4 * ('<' :: c :: rest).length + 15) + 1 := rfl
  have hch : tplParseChildren (4 * ('<' :: c :: rest).length + 16) ⟨'<' :: c :: rest, 0⟩ none
      = .error ⟨str "Expected tag name", Span.new 0 1, .UnexpectedToken⟩ := by
    rw [e5]
    simp only [tplParseChildren]
    simp only [e6, Bool.false_eq_true, if_false]
    have e7 : 4 * ('<' :: c :: rest).length + 15 = (4 * ('<' :: c :: rest).length + 13) + 2 := rfl
    rw [e7, hnode]
  simp only [parse_template]
  rw [hch]

/-- C6 witness: the amended failure theorem applied to the input `<(`. -/
theorem c6_witness :
    ('(' ≠ '!') ∧ ('(' ≠ '/') ∧ (Char.isWhitespace '(' = false) ∧
    ((Char.isAlphanum '(' || '(' = '-' || '(' = '_' || '(' = ':') = false) ∧
    parse_template ['<', '(']
      = .error ⟨str "Expected tag name", Span.new 0 1, .UnexpectedToken⟩ :=
  ⟨by decide, by decide, by decide, by decide,
    c6_stray_angle_error '(' [] (by decide) (by decide) (by decide) (by decide)⟩

/-- The detected script language (`ScriptLang`). -/
inductive ScriptLang where
  | Ts
  | Tsx
  | Js
  | Jsx
  deriving Repr, DecidableEq

/-- A code generation error (`CodegenError`). -/
structure CodegenError where
  message : Str
  span : Span
  deriving Repr, DecidableEq

/-- The Vue target version (`VueTarget`). -/
inductive VueTarget where
  | V3_0
  | V3_3
  | V3_5
  deriving Repr, DecidableEq

/-- Options for code generation (`CodegenOptions`). -/
structure CodegenOptions where
  target : VueTarget
  strict : Bool
  filename : Option Str
  deriving Repr, DecidableEq

/-- `CodegenOptions::default()` (`VueTarget::V3_5`, not strict, no name). -/
def CodegenOptions.default : CodegenOptions := ⟨.V3_5, false, none⟩

/-- `DefinePropsInfo`. -/
structure DefinePropsInfo where
  type_arg : Option Str
  destructure_pattern : Option Str
  deriving Repr, DecidableEq

/-- `DefineEmitsInfo`. -/
structure DefineEmitsInfo where
  type_arg : Option Str
  deriving Repr, DecidableEq

/-- `DefineSlotsInfo`. -/
structure DefineSlotsInfo where
  type_arg : Option Str
  deriving Repr, DecidableEq

/-- `DefineModelInfo`. -/
structure DefineModelInfo where
  name : Str
  type_arg : Option Str
  deriving Repr, DecidableEq

/-- `DefineExposeInfo`. -/
structure DefineExposeInfo where
  expression : Str
  deriving Repr, DecidableEq

/-- Macro information extracted from a script setup block (`MacroInfo`). -/
structure MacroInfo where
  define_props : Option DefinePropsInfo
  define_emits : Option DefineEmitsInfo
  define_slots : Option DefineSlotsInfo
  define_models : List DefineModelInfo
  define_expose : Option DefineExposeInfo
  exposed : List Str
  deriving Repr, DecidableEq

/-- `MacroInfo::default()`. -/
def MacroInfo.default : MacroInfo := ⟨none, none, none, [], none, []⟩

/-- Source of a scope variable (`VarSource`). -/
inductive VarSource where
  | Props
  | Setup
  | VFor
  | SlotProps
  | Import
  | Builtin
  deriving Repr, DecidableEq

/-- A variable in the current scope (`ScopeVar`). -/
structure ScopeVar where
  name : Str
  source : VarSource
  deriving Repr, DecidableEq

/-- The code generation context (`CodegenContext`); the `FxHashSet` fields
`components` and `directives` become duplicate-free lists (they are only
inserted into, never read back during generation). -/
structure CodegenContext where
  options : CodegenOptions
  lang : ScriptLang
  generics : Option Str
  macros : MacroInfo
  scope_vars : List ScopeVar
  components : List Str
  directives : List Str
  errors : List CodegenError
  counter : Nat
  deriving Repr, DecidableEq

/-- `CodegenContext::new` (the `ScriptLang` default is `Ts`). -/
def CodegenContext.new (options : CodegenOptions) : CodegenContext :=
  ⟨options, .Ts, none, MacroInfo.default, [], [], [], [], 0⟩

/-- `CodegenContext::unique_id`. -/
def CodegenContext.unique_id (ctx : CodegenContext) (p : Str) : Str × CodegenContext :=
  let ctx := { ctx with counter := ctx.counter + 1 }
  (p ++ (Nat.repr ctx.counter).data, ctx)

/-- `CodegenContext::add_var`. -/
def CodegenContext.add_var (ctx : CodegenContext) (name : Str) (source : VarSource) :
    CodegenContext :=
  { ctx with scope_vars := ctx.scope_vars ++ [⟨name, source⟩] }

/-- `CodegenContext::has_var`. -/
def CodegenContext.has_var (ctx : CodegenContext) (name : Str) : Bool :=
  ctx.scope_vars.any (fun v => v.name == name)

/-- `CodegenContext::get_var_source`. -/
def CodegenContext.get_var_source (ctx : CodegenContext) (name : Str) : Option VarSource :=
  (ctx.scope_vars.reverse.find? (fun v => v.name == name)).map (fun v => v.source)

/-- `CodegenContext::enter_scope`. -/
def CodegenContext.enter_scope (ctx : CodegenContext) : Nat × CodegenContext :=
  (ctx.scope_vars.length, ctx)

/-- `CodegenContext::exit_scope` (`Vec::truncate`). -/
def CodegenContext.exit_scope (ctx : CodegenContext) (marker : Nat) : CodegenContext :=
  { ctx with scope_vars := ctx.scope_vars.take marker }

/-- `CodegenContext::use_component` (set insertion). -/
def CodegenContext.use_component (ctx : CodegenContext) (name : Str) : CodegenContext :=
  if ctx.components.contains name then ctx
  else { ctx with components := ctx.components ++ [name] }

/-- `CodegenContext::use_directive` (set insertion). -/
def CodegenContext.use_directive (ctx : CodegenContext) (name : Str) : CodegenContext :=
  if ctx.directives.contains name then ctx
  else { ctx with directives := ctx.directives ++ [name] }
/-- `helpers::VLS_HELPER_TYPES` (the verbatim helper-type preamble). -/
def VLS_HELPER_TYPES : Str :=
  str "\n"
  ++ str "// Helper types for Vue type checking\n"
  ++ str "\n"
  ++ str "type __VLS_Prettify<T> = \x7b [K in keyof T]: T[K] \x7d & \x7b\x7d;\n"
  ++ str "\n"
  ++ str "type __VLS_WithDefaults<P, D> = \x7b\n"
  ++ str "    [K in keyof P]: K extends keyof D\n"
  ++ str "        ? P[K] extends undefined\n"
  ++ str "            ? D[K]\n"
  ++ str "            : P[K]\n"
  ++ str "        : P[K];\n"
  ++ str "\x7d;\n"
  ++ str "\n"
  ++ str "type __VLS_NonUndefinedable<T> = T extends undefined ? never : T;\n"
  ++ str "\n"
  ++ str "type __VLS_TypePropsToOption<T> = \x7b\n"
  ++ str "    [K in keyof T]-?: \x7b\x7d extends Pick<T, K>\n"
  ++ str "        ? \x7b type: __VLS_PropType<__VLS_NonUndefinedable<T[K]>>; required?: false \x7d\n"
  ++ str "        : \x7b type: __VLS_PropType<T[K]>; required: true \x7d;\n"
  ++ str "\x7d;\n"
  ++ str "\n"
  ++ str "type __VLS_WithComponent<N, C> = C;\n"
  ++ str "\n"
  ++ str "type __VLS_IntrinsicElements = \x7b\n"
  ++ str "    [K in keyof HTMLElementTagNameMap]: Partial<HTMLElementTagNameMap[K]>;\n"
  ++ str "\x7d & \x7b\n"
  ++ str "    [K in keyof SVGElementTagNameMap]: Partial<SVGElementTagNameMap[K]>;\n"
  ++ str "\x7d;\n"
  ++ str "\n"
  ++ str "interface __VLS_TemplateContext \x7b\n"
  ++ str "    $slots: any;\n"
  ++ str "    $attrs: any;\n"
  ++ str "    $refs: any;\n"
  ++ str "    $el: any;\n"
  ++ str "    $emit: any;\n"
  ++ str "    $props: any;\n"
  ++ str "\x7d\n"
  ++ str "\n"
  ++ str "declare function __VLS_asFunctionalComponent<T>(\n"
  ++ str "    t: T,\n"
  ++ str "): T extends new (...args: any[]) => any\n"
  ++ str "    ? InstanceType<T> extends \x7b $props: infer P \x7d\n"
  ++ str "        ? (props: P & Record<string, unknown>) => any\n"
  ++ str "        : never\n"
  ++ str "    : T;\n"
  ++ str "\n"
  ++ str "declare function __VLS_getVForSourceType<T>(\n"
  ++ str "    source: T,\n"
  ++ str "): T extends number\n"
  ++ str "    ? number[]\n"
  ++ str "    : T extends string\n"
  ++ str "    ? string[]\n"
  ++ str "    : T extends readonly (infer U)[]\n"
  ++ str "    ? U[]\n"
  ++ str "    : T extends Iterable<infer U>\n"
  ++ str "    ? U[]\n"
  ++ str "    : \x7b [K in keyof T]: T[K] \x7d[];\n"
  ++ str "\n"
  ++ str "declare function __VLS_getSlotParams<T>(\n"
  ++ str "    slot: T,\n"
  ++ str "): T extends (...args: any[]) => any ? Parameters<T>[0] : never;\n"
  ++ str "\n"
  ++ str "declare function __VLS_elementAsFunction<T extends keyof __VLS_IntrinsicElements>(\n"
  ++ str "    tag: T,\n"
  ++ str "): (props: __VLS_IntrinsicElements[T]) => void;\n"
  ++ str "\n"
  ++ str "declare function __VLS_componentAsFunction<T>(\n"
  ++ str "    component: T,\n"
  ++ str "): T extends new (...args: any[]) => infer R\n"
  ++ str "    ? (props: R extends \x7b $props: infer P \x7d ? P : never) => void\n"
  ++ str "    : T extends (...args: any[]) => any\n"
  ++ str "    ? T\n"
  ++ str "    : never;\n"
  ++ str "\n"
  ++ str "declare function __VLS_resolveComponent<T extends string>(\n"
  ++ str "    name: T,\n"
  ++ str "): any;\n"
  ++ str "\n"
  ++ str "declare function __VLS_resolveDirective<T extends string>(\n"
  ++ str "    name: T,\n"
  ++ str "): any;\n"
  ++ str "\n"
  ++ str "declare function __VLS_withAsyncContext<T>(\n"
  ++ str "    getAwaitable: () => Promise<T>,\n"
  ++ str "): Promise<T>;\n"
  ++ str ""

/-- `helpers::HTML_TAGS`. -/
def HTML_TAGS : List Str :=
  [str "a", str "abbr", str "address", str "area", str "article", str "aside", str "audio", str "b", str "base", str "bdi", str "bdo", str "blockquote", str "body", str "br", str "button", str "canvas", str "caption", str "cite", str "code", str "col", str "colgroup", str "data", str "datalist", str "dd", str "del", str "details", str "dfn", str "dialog", str "div", str "dl", str "dt", str "em", str "embed", str "fieldset", str "figcaption", str "figure", str "footer", str "form", str "h1", str "h2", str "h3", str "h4", str "h5", str "h6", str "head", str "header", str "hgroup", str "hr", str "html", str "i", str "iframe", str "img", str "input", str "ins", str "kbd", str "label", str "legend", str "li", str "link", str "main", str "map", str "mark", str "math", str "menu", str "meta", str "meter", str "nav", str "noscript", str "object", str "ol", str "optgroup", str "option", str "output", str "p", str "param", str "picture", str "pre", str "progress", str "q", str "rp", str "rt", str "ruby", str "s", str "samp", str "script", str "search", str "section", str "select", str "slot", str "small", str "source", str "span", str "strong", str "style", str "sub", str "summary", str "sup", str "svg", str "table", str "tbody", str "td", str "template", str "textarea", str "tfoot", str "th", str "thead", str "time", str "title", str "tr", str "track", str "u", str "ul", str "var", str "video", str "wbr"]

/-- `helpers::SVG_TAGS`. -/
def SVG_TAGS : List Str :=
  [str "svg", str "animate", str "animateMotion", str "animateTransform", str "circle", str "clipPath", str "defs", str "desc", str "ellipse", str "feBlend", str "feColorMatrix", str "feComponentTransfer", str "feComposite", str "feConvolveMatrix", str "feDiffuseLighting", str "feDisplacementMap", str "feDistantLight", str "feDropShadow", str "feFlood", str "feFuncA", str "feFuncB", str "feFuncG", str "feFuncR", str "feGaussianBlur", str "feImage", str "feMerge", str "feMergeNode", str "feMorphology", str "feOffset", str "fePointLight", str "feSpecularLighting", str "feSpotLight", str "feTile", str "feTurbulence", str "filter", str "foreignObject", str "g", str "image", str "line", str "linearGradient", str "marker", str "mask", str "metadata", str "mpath", str "path", str "pattern", str "polygon", str "polyline", str "radialGradient", str "rect", str "set", str "stop", str "switch", str "symbol", str "text", str "textPath", str "tspan", str "use", str "view"]

/-- `helpers::BUILTIN_COMPONENTS`. -/
def BUILTIN_COMPONENTS : List Str :=
  [str "Transition", str "TransitionGroup", str "KeepAlive", str "Suspense", str "Teleport"]

/-- `helpers::is_builtin_component`. -/
def is_builtin_component (name : Str) : Bool :=
  BUILTIN_COMPONENTS.any (fun b => eqIgnoreAsciiCase b name)

/-- `helpers::is_html_tag`. -/
def is_html_tag (tag : Str) : Bool := HTML_TAGS.contains (lowerStr tag)

/-- `helpers::is_svg_tag`. -/
def is_svg_tag (tag : Str) : Bool := SVG_TAGS.contains (lowerStr tag)

/-- `template::is_simple_identifier`. -/
def is_simple_identifier (s : Str) : Bool :=
  match s with
  | [] => false
  | c :: rest =>
    (c.isAlpha || c = '_' || c = '$') &&
      rest.all (fun c => c.isAlphanum || c = '_' || c = '$')

/-- `template::is_js_builtin` (the `matches!` list, in source order). -/
def is_js_builtin (name : Str) : Bool :=
  [str "true", str "false", str "null", str "undefined", str "NaN", str "Infinity",
    str "this", str "console", str "window", str "document", str "Math", str "JSON",
    str "Date", str "Array", str "Object", str "String", str "Number", str "Boolean",
    str "Symbol", str "Map", str "Set", str "WeakMap", str "WeakSet", str "Promise",
    str "Proxy", str "Reflect", str "Error", str "TypeError", str "RangeError",
    str "parseInt", str "parseFloat", str "isNaN", str "isFinite", str "encodeURI",
    str "decodeURI", str "encodeURIComponent", str "decodeURIComponent"].contains name

/-- `template::wrap_expression_identifiers`. -/
def wrap_expression_identifiers (expr : Str) (ctx : CodegenContext) : Str :=
  let expr := trimStr expr
  if is_simple_identifier expr then
    if is_js_builtin expr || ctx.has_var expr then expr
    else str "__VLS_ctx." ++ expr
  else expr

/-- `template::extract_binding_names`. -/
def extract_binding_names (pattern : Str) : List Str :=
  let pattern := trimStr pattern
  if pattern.head? = some '\x7b' ∧ pattern.getLast? = some '\x7d' then
    let inner := (pattern.drop 1).dropLast
    ((inner.splitOn ',').map (fun part =>
      let part := trimStr part
      match part.findIdx? (fun c => c = ':') with
      | some colon_pos => trimStr (part.drop (colon_pos + 1))
      | none =>
        match part.findIdx? (fun c => c = '=') with
        | some eq_pos => trimStr (part.take eq_pos)
        | none => part)).filter (fun s => ¬ s.isEmpty)
  else if pattern.head? = some '[' ∧ pattern.getLast? = some ']' then
    let inner := (pattern.drop 1).dropLast
    ((inner.splitOn ',').map trimStr).filter (fun s => ¬ s.isEmpty)
  else [pattern]

/-- First match of a (deterministic, non-empty-match) pattern matcher over all
start positions of a string, earliest position first — the search semantics of
`Regex::captures` for the linear patterns used below, whose `\s*`, `[^>]+`,
`[^}]*` pieces are each followed by a character they exclude, so the regex
backtracks never and the match at a position is unique. -/
def searchFirst (f : Str → Option α) : Str → Option α
  | [] => f []
  | s@(_ :: rest) =>
    match f s with
    | some r => some r
    | none => searchFirst f rest

/-- Matcher for `defineProps\s*<([^>]+)>\s*\(\s*\)` anchored at the start of
`s`; returns the capture. -/
def matchDefinePropsTyped (s : Str) : Option Str :=
  if (str "defineProps").isPrefixOf s then
    let s1 := s.drop (str "defineProps").length
    let s2 := s1.drop (countWhile Char.isWhitespace s1)
    match s2 with
    | '<' :: t =>
      let n := countWhile (fun c => c != '>') t
      if n = 0 then none
      else
        match t.drop n with
        | '>' :: t2 =>
          let t3 := t2.drop (countWhile Char.isWhitespace t2)
          match t3 with
          | '(' :: t4 =>
            let t5 := t4.drop (countWhile Char.isWhitespace t4)
            match t5 with
            | ')' :: _ => some (t.take n)
            | _ => none
          | _ => none
        | _ => none
    | _ => none
  else none

/-- Matcher for `defineProps\s*\(\s*\{([^}]*)\}\s*\)` anchored at the start of
`s`; returns the capture. -/
def matchDefinePropsParen (s : Str) : Option Str :=
  if (str "defineProps").isPrefixOf s then
    let s1 := s.drop (str "defineProps").length
    let s2 := s1.drop (countWhile Char.isWhitespace s1)
    match s2 with
    | '(' :: t =>
      let t1 := t.drop (countWhile Char.isWhitespace t)
      match t1 with
      | '\x7b' :: t2 =>
        let n := countWhile (fun c => c != '\x7d') t2
        match t2.drop n with
        | '\x7d' :: t3 =>
          let t4 := t3.drop (countWhile Char.isWhitespace t3)
          match t4 with
          | ')' :: _ => some (t2.take n)
          | _ => none
        | _ => none
      | _ => none
    | _ => none
  else none

/-- `extract_define_props`: the two regex patterns in order, then the plain
`contains` fallback. -/
def extract_define_props (content : Str) : Option DefinePropsInfo :=
  match searchFirst matchDefinePropsTyped content with
  | some cap => some ⟨some cap, none⟩
  | none =>
    match searchFirst matchDefinePropsParen content with
    | some cap => some ⟨some cap, none⟩
    | none =>
      if containsSub content (str "defineProps") then some ⟨none, none⟩
      else none

/-- Matcher for `NAME\s*<([^>]+)>` anchored at the start of `s` (shared shape
of the `defineEmits` and `defineSlots` type-argument regexes). -/
def matchAngleTypeArg (name : Str) (s : Str) : Option Str :=
  if name.isPrefixOf s then
    let s1 := s.drop name.length
    let s2 := s1.drop (countWhile Char.isWhitespace s1)
    match s2 with
    | '<' :: t =>
      let n := countWhile (fun c => c != '>') t
      if n = 0 then none
      else
        match t.drop n with
        | '>' :: _ => some (t.take n)
        | _ => none
    | _ => none
  else none

/-- `extract_define_emits`. -/
def extract_define_emits (content : Str) : Option DefineEmitsInfo :=
  if containsSub content (str "defineEmits") then
    match searchFirst (matchAngleTypeArg (str "defineEmits")) content with
    | some cap => some ⟨some cap⟩
    | none => some ⟨none⟩
  else none

/-- `extract_define_slots`. -/
def extract_define_slots (content : Str) : Option DefineSlotsInfo :=
  if containsSub content (str "defineSlots") then
    match searchFirst (matchAngleTypeArg (str "defineSlots")) content with
    | some cap => some ⟨some cap⟩
    | none => some ⟨none⟩
  else none

/-- Matcher for one `defineModel\s*(?:<([^>]+)>)?\s*\(\s*['"]?(\w*)['"]?`
match anchored at the start of `s`; returns the two captures and the length
of the whole match (`\w` is modelled as ASCII alphanumeric or underscore). -/
def matchDefineModel (s : Str) : Option (Option Str × Str × Nat) :=
  if (str "defineModel").isPrefixOf s then
    let l0 := (str "defineModel").length
    let s1 := s.drop l0
    let w1 := countWhile Char.isWhitespace s1
    let s2 := s1.drop w1
    let step : Option (Option Str × Str × Nat) :=
      match s2 with
      | '<' :: t =>
        let n := countWhile (fun c => c != '>') t
        if n = 0 then none
        else
          match t.drop n with
          | '>' :: t2 => some (some (t.take n), t2, n + 2)
          | _ => none
      | _ => some (none, s2, 0)
    match step with
    | none => none
    | some (targ, s3, used) =>
      let w2 := countWhile Char.isWhitespace s3
      let s4 := s3.drop w2
      match s4 with
      | '(' :: t =>
        let w3 := countWhile Char.isWhitespace t
        let t1 := t.drop w3
        let q1 : Nat := match t1.head? with
          | some c => if c = '"' ∨ c = sqc then 1 else 0
          | none => 0
        let t2 := t1.drop q1
        let wn := countWhile (fun c => c.isAlphanum || c = '_') t2
        let name := t2.take wn
        let t3 := t2.drop wn
        let q2 : Nat := match t3.head? with
          | some c => if c = '"' ∨ c = sqc then 1 else 0
          | none => 0
        some (targ, name, l0 + w1 + used + w2 + 1 + w3 + q1 + wn + q2)
      | _ => none
  else none

/-- Iteration of `captures_iter` for `defineModel`: scan left to right,
resuming after the end of each (non-empty) match; structural fuel bounds the
number of scanned positions. -/
def defineModelIter : Nat → Str → List (Option Str × Str)
  | 0, _ => []
  | _, [] => []
  | fuel + 1, s@(_ :: rest) =>
    match matchDefineModel s with
    | some (targ, name, len) => (targ, name) :: defineModelIter fuel (s.drop len)
    | none => defineModelIter fuel rest

/-- `extract_define_models`. -/
def extract_define_models (content : Str) : List DefineModelInfo :=
  (defineModelIter (content.length + 1) content).map (fun m =>
    let name := if m.2.isEmpty then str "modelValue" else m.2
    ⟨name, m.1⟩)

/-- Matcher for `defineExpose\s*\(\s*(\{[^}]*\})` anchored at the start of
`s`; the capture includes the braces. -/
def matchDefineExpose (s : Str) : Option Str :=
  if (str "defineExpose").isPrefixOf s then
    let s1 := s.drop (str "defineExpose").length
    let s2 := s1.drop (countWhile Char.isWhitespace s1)
    match s2 with
    | '(' :: t =>
      let t1 := t.drop (countWhile Char.isWhitespace t)
      match t1 with
      | '\x7b' :: t2 =>
        let n := countWhile (fun c => c != '\x7d') t2
        match t2.drop n with
        | '\x7d' :: _ => some ('\x7b' :: (t2.take n ++ ['\x7d']))
        | _ => none
      | _ => none
    | _ => none
  else none

/-- `extract_define_expose`. -/
def extract_define_expose (content : Str) : Option DefineExposeInfo :=
  (searchFirst matchDefineExpose content).map (fun cap => ⟨cap⟩)

/-- `extract_macros`. -/
def extract_macros (content : Str) : MacroInfo :=
  { MacroInfo.default with
    define_props := extract_define_props content
    define_emits := extract_define_emits content
    define_slots := extract_define_slots content
    define_models := extract_define_models content
    define_expose := extract_define_expose content }

def SlotNode.props : SlotNode → Option SlotProps
  | .mk _ p _ _ => p

def SlotNode.children : SlotNode → List TemplateNode
  | .mk _ _ c _ => c

/-- `"  ".repeat(indent)`. -/
def indStr : Nat → Str
  | 0 => []
  | n + 1 => str "  " ++ indStr n

/-- `template::generate_expression` (`ctx` is only read). -/
def generate_expression (b : CodeBuilder) (expr : Expression) (ctx : CodegenContext) :
    CodeBuilder :=
  b.push_mapped (wrap_expression_identifiers expr.content ctx) expr.span.start

/-- `template::generate_props_check`. -/
def generate_props_check (b : CodeBuilder) (props : List PropNode) (ctx : CodegenContext)
    (indent : Nat) : CodeBuilder :=
  props.foldl (fun b p =>
    let b := (((b.push_str (indStr indent)).push_str (str "// prop: ")).push_str
      p.name).push_str (str "\n")
    let b := (b.push_str (indStr indent)).push_str (str "(")
    (generate_expression b p.value ctx).push_str (str ");\n")) b

/-- `template::generate_events_check`. -/
def generate_events_check (b : CodeBuilder) (events : List EventListener)
    (ctx : CodegenContext) (indent : Nat) : CodeBuilder :=
  events.foldl (fun b e =>
    let b := (((b.push_str (indStr indent)).push_str (str "// event: ")).push_str
      e.name).push_str (str "\n")
    let b := (b.push_str (indStr indent)).push_str (str "(")
    (generate_expression b e.handler ctx).push_str (str ");\n")) b

/-- `template::generate_attr_check` (a no-op in the source). -/
def generate_attr_check (b : CodeBuilder) (_attr : Attribute) (_tag : Str)
    (_ctx : CodegenContext) (_indent : Nat) : CodeBuilder := b

/-- `template::generate_interpolation` (`ctx` is only read). -/
def generate_interpolation (b : CodeBuilder) (interp : InterpolationNode)
    (ctx : CodegenContext) (indent : Nat) : CodeBuilder :=
  let b := (((b.push_str (indStr indent)).push_str
    (str "// interpolation: \x7b\x7b ")).push_str interp.expression.content).push_str
    (str " \x7d\x7d\n")
  let b := (b.push_str (indStr indent)).push_str (str "(")
  (generate_expression b interp.expression ctx).push_str (str ");\n")

/- `template::generate_node`, `generate_element`, `generate_if`,
`generate_if_branch`, `generate_for`, `generate_slot_outlet`: the Rust
recursion over the tree, with a structural fuel argument added and the Rust
`for` loops over child nodes, slots and branches written as the explicit list
recursions `generate_node_list`, `generate_slot_entries` and
`generate_if_branch_list` (every recursive edge spends one unit of fuel;
callers below pass fuel that generously dominates the tree size, and fuel
exhaustion generates nothing). -/
mutual
def generate_node : Nat → CodeBuilder → TemplateNode → CodegenContext → Nat →
    CodeBuilder × CodegenContext
  | 0, b, _, ctx, _ => (b, ctx)
  | fuel + 1, b, node, ctx, indent =>
    match node with
    | .element el => generate_element fuel b el ctx indent
    | .interpolation interp => (generate_interpolation b interp ctx indent, ctx)
    | .ifNode if_node => generate_if fuel b if_node ctx indent
    | .forNode for_node => generate_for fuel b for_node ctx indent
    | .slotOutlet slot => generate_slot_outlet fuel b slot ctx indent
    | .template tmpl => generate_node_list fuel b tmpl.children ctx indent
    | .text _ => (b, ctx)
    | .comment _ => (b, ctx)
termination_by structural fuel _ _ _ _ => fuel

def generate_node_list : Nat → CodeBuilder → List TemplateNode → CodegenContext → Nat →
    CodeBuilder × CodegenContext
  | 0, b, _, ctx, _ => (b, ctx)
  | _ + 1, b, [], ctx, _ => (b, ctx)
  | fuel + 1, b, node :: rest, ctx, indent =>
    let (b, ctx) := generate_node fuel b node ctx indent
    generate_node_list fuel b rest ctx indent
termination_by structural fuel _ _ _ _ => fuel

def generate_element : Nat → CodeBuilder → ElementNode → CodegenContext → Nat →
    CodeBuilder × CodegenContext
  | 0, b, _, ctx, _ => (b, ctx)
  | fuel + 1, b, el, ctx, indent =>
    let ind := indStr indent
    let tag := el.tag
    let pair :=
      if el.is_component then
        let ctx := ctx.use_component tag
        let b := (b.push_str ind).push_str (str "\x7b\n")
        let (uid, ctx) := ctx.unique_id (str "component")
        let b := (((b.push_str ind).push_str (str "  const __VLS_")).push_str uid).push_str
          (str " = __VLS_resolveComponent(" ++ [sqc])
        let b := (b.push_str tag).push_str ([sqc] ++ str ");\n")
        let b := generate_props_check b el.props ctx (indent + 1)
        let b := generate_events_check b el.events ctx (indent + 1)
        let (b, ctx) := generate_slot_entries fuel b el.slots ctx indent
        let b := (b.push_str ind).push_str (str "\x7d\n")
        (b, ctx)
      else
        let is_svg := is_svg_tag tag
        let is_html := is_html_tag tag
        if is_html || is_svg then
          let b := (b.push_str ind).push_str (str "\x7b\n")
          let b := el.attrs.foldl (fun b attr =>
            generate_attr_check b attr tag ctx (indent + 1)) b
          let b := generate_props_check b el.props ctx (indent + 1)
          let b := generate_events_check b el.events ctx (indent + 1)
          let b := (b.push_str ind).push_str (str "\x7d\n")
          (b, ctx)
        else (b, ctx)
    generate_node_list fuel pair.1 el.children pair.2 indent
termination_by structural fuel _ _ _ _ => fuel

def generate_slot_entries : Nat → CodeBuilder → List (Str × SlotNode) → CodegenContext →
    Nat → CodeBuilder × CodegenContext
  | 0, b, _, ctx, _ => (b, ctx)
  | _ + 1, b, [], ctx, _ => (b, ctx)
  | fuel + 1, b, slotPair :: rest, ctx, indent =>
    let slot := slotPair.2
    let (scope_marker, ctx) := ctx.enter_scope
    let ctx :=
      match slot.props with
      | some props =>
        (extract_binding_names props.pattern).foldl
          (fun ctx name => ctx.add_var name .SlotProps) ctx
      | none => ctx
    let (b, ctx) := generate_node_list fuel b slot.children ctx (indent + 1)
    let ctx := ctx.exit_scope scope_marker
    generate_slot_entries fuel b rest ctx indent
termination_by structural fuel _ _ _ _ => fuel

def generate_if : Nat → CodeBuilder → IfNode → CodegenContext → Nat →
    CodeBuilder × CodegenContext
  | 0, b, _, ctx, _ => (b, ctx)
  | fuel + 1, b, if_node, ctx, indent =>
    let (b, ctx) := generate_if_branch_list fuel b if_node.branches ctx indent true
    ((b.push_str (indStr indent)).push_str (str "\x7d\n"), ctx)
termination_by structural fuel _ _ _ _ => fuel

def generate_if_branch_list : Nat → CodeBuilder → List IfBranch → CodegenContext → Nat →
    Bool → CodeBuilder × CodegenContext
  | 0, b, _, ctx, _, _ => (b, ctx)
  | _ + 1, b, [], ctx, _, _ => (b, ctx)
  | fuel + 1, b, branch :: rest, ctx, indent, is_first =>
    let (b, ctx) := generate_if_branch fuel b branch ctx indent is_first
    generate_if_branch_list fuel b rest ctx indent false
termination_by structural fuel _ _ _ _ _ => fuel

def generate_if_branch : Nat → CodeBuilder → IfBranch → CodegenContext → Nat → Bool →
    CodeBuilder × CodegenContext
  | 0, b, _, ctx, _, _ => (b, ctx)
  | fuel + 1, b, branch, ctx, indent, is_first =>
    let ind := indStr indent
    let b :=
      if is_first then
        let b := (b.push_str ind).push_str (str "if (")
        let b := match branch.condition with
          | some condition => generate_expression b condition ctx
          | none => b
        b.push_str (str ") \x7b\n")
      else if branch.condition.isSome then
        let b := (b.push_str ind).push_str (str "\x7d else if (")
        let b := match branch.condition with
          | some condition => generate_expression b condition ctx
          | none => b
        b.push_str (str ") \x7b\n")
      else (b.push_str ind).push_str (str "\x7d else \x7b\n")
    generate_node_list fuel b branch.children ctx (indent + 1)
termination_by structural fuel _ _ _ _ _ => fuel

def generate_for : Nat → CodeBuilder → ForNode → CodegenContext → Nat →
    CodeBuilder × CodegenContext
  | 0, b, _, ctx, _ => (b, ctx)
  | fuel + 1, b, for_node, ctx, indent =>
    let ind := indStr indent
    let (scope_marker, ctx) := ctx.enter_scope
    let b := (b.push_str ind).push_str (str "for (const [")
    let value_name := for_node.value.pattern
    let ctx := ctx.add_var value_name .VFor
    let b := b.push_str value_name
    let (b, ctx) := match for_node.key with
      | some key => ((b.push_str (str ", ")).push_str key.pattern, ctx.add_var key.pattern .VFor)
      | none => (b, ctx)
    let (b, ctx) := match for_node.index with
      | some index =>
        ((b.push_str (str ", ")).push_str index.pattern, ctx.add_var index.pattern .VFor)
      | none => (b, ctx)
    let b := b.push_str (str "] of __VLS_getVForSourceType(")
    let b := generate_expression b for_node.source ctx
    let b := b.push_str (str ")) \x7b\n")
    let (b, ctx) := generate_node_list fuel b for_node.children ctx (indent + 1)
    let b := (b.push_str ind).push_str (str "\x7d\n")
    (b, ctx.exit_scope scope_marker)
termination_by structural fuel _ _ _ _ => fuel

def generate_slot_outlet : Nat → CodeBuilder → SlotOutletNode → CodegenContext → Nat →
    CodeBuilder × CodegenContext
  | 0, b, _, ctx, _ => (b, ctx)
  | fuel + 1, b, slot, ctx, indent =>
    let ind := indStr indent
    let b := (b.push_str ind).push_str (str "// slot outlet\n")
    let b := (b.push_str ind).push_str (str "__VLS_ctx.$slots[")
    let b := generate_expression b slot.name ctx
    let b := b.push_str (str "]?.(\x7b\n")
    let b := slot.props.foldl (fun b p =>
      let b := ((b.push_str ind).push_str (str "  ")).push_str p.name
      let b := b.push_str (str ": ")
      (generate_expression b p.value ctx).push_str (str ",\n")) b
    let b := (b.push_str ind).push_str (str "\x7d);\n")
    generate_node_list fuel b slot.fallback ctx indent
termination_by structural fuel _ _ _ _ => fuel

end

/-- `template::generate_template` (fuel added as explained above). -/
def generate_template (fuel : Nat) (b : CodeBuilder) (ast : TemplateAst)
    (ctx : CodegenContext) : CodeBuilder × CodegenContext :=
  let b := b.push_str (str "\n// Template type checking\n")
  let b := b.push_str (str "function __VLS_template() \x7b\n")
  let b := b.push_str (str "  const __VLS_ctx = \x7b\x7d as __VLS_TemplateContext & \x7b\n")
  let b := b.push_str (str "    $props: typeof __VLS_props;\n")
  let b := b.push_str (str "    $emit: typeof __VLS_emit;\n")
  let b := b.push_str (str "  \x7d;\n\n")
  let (b, ctx) := generate_node_list fuel b ast.children ctx 1
  (b.push_str (str "\x7d\n"), ctx)

/-- `script::generate_script`. -/
def generate_script (b : CodeBuilder) (script : ScriptBlock) (_ctx : CodegenContext) :
    CodeBuilder :=
  let content_start := script.block.content_span.start
  let b := b.push_str (str "// Script block\n")
  let b := b.push_mapped script.block.content content_start
  b.newline.newline

/-- `generate_helpers`. -/
def generate_helpers (b : CodeBuilder) (_ctx : CodegenContext) : CodeBuilder :=
  let b := b.push_str (str "import \x7b ")
  let b := b.push_str (str "defineComponent as __VLS_defineComponent, ")
  let b := b.push_str (str "ref as __VLS_ref, ")
  let b := b.push_str (str "computed as __VLS_computed, ")
  let b := b.push_str (str "reactive as __VLS_reactive, ")
  let b := b.push_str (str "PropType as __VLS_PropType, ")
  let b := b.push_str (str "ExtractPropTypes as __VLS_ExtractPropTypes, ")
  let b := b.push_str (str "ComponentPublicInstance as __VLS_ComponentPublicInstance ")
  let b := b.push_str (str "\x7d from " ++ [sqc] ++ str "vue" ++ [sqc] ++ str ";\n\n")
  let b := b.push_str VLS_HELPER_TYPES
  b.newline

/-- `generate_macro_declarations` (only the builder changes). -/
def generate_macro_declarations (b : CodeBuilder) (macros : MacroInfo)
    (_ctx : CodegenContext) : CodeBuilder :=
  let b :=
    match macros.define_props with
    | some props =>
      let b := b.push_str (str "const __VLS_props = defineProps")
      let b :=
        match props.type_arg with
        | some type_arg => ((b.push_str (str "<")).push_str type_arg).push_str (str ">")
        | none => b
      let b := b.push_str (str "();\n")
      match props.destructure_pattern with
      | some pattern =>
        (((b.push_str (str "const ")).push_str pattern).push_str (str " = __VLS_props;\n"))
      | none => b
    | none => b
  let b :=
    match macros.define_emits with
    | some emits =>
      let b := b.push_str (str "const __VLS_emit = defineEmits")
      let b :=
        match emits.type_arg with
        | some type_arg => ((b.push_str (str "<")).push_str type_arg).push_str (str ">")
        | none => b
      b.push_str (str "();\n")
    | none => b
  let b :=
    match macros.define_slots with
    | some slots =>
      let b := b.push_str (str "const __VLS_slots = defineSlots")
      let b :=
        match slots.type_arg with
        | some type_arg => ((b.push_str (str "<")).push_str type_arg).push_str (str ">")
        | none => b
      b.push_str (str "();\n")
    | none => b
  let b := macros.define_models.foldl (fun b mdl =>
    let b := (b.push_str (str "const ")).push_str mdl.name
    let b := b.push_str (str " = defineModel")
    let b :=
      match mdl.type_arg with
      | some type_arg => ((b.push_str (str "<")).push_str type_arg).push_str (str ">")
      | none => b
    let b := b.push_str (str "(")
    let b :=
      if mdl.name ≠ str "modelValue" then
        ((b.push_str [sqc]).push_str mdl.name).push_str [sqc]
      else b
    b.push_str (str ");\n")) b
  match macros.define_expose with
  | some expose =>
    ((b.push_str (str "defineExpose(")).push_str expose.expression).push_str (str ");\n")
  | none => b

/-- `generate_script_setup`. -/
def generate_script_setup (b : CodeBuilder) (script_setup : ScriptSetupBlock) (_sfc : Sfc)
    (ctx : CodegenContext) : CodeBuilder × CodegenContext :=
  let ctx :=
    match script_setup.generic with
    | some generic => { ctx with generics := some generic }
    | none => ctx
  let macros := extract_macros script_setup.block.content
  let ctx := { ctx with macros := macros }
  let b :=
    if ctx.generics.isSome then
      let b := b.push_str (str "function __VLS_setup<")
      let b := b.push_str (ctx.generics.getD [])
      b.push_str (str ">() \x7b\n")
    else b.push_str (str "function __VLS_setup() \x7b\n")
  let b := generate_macro_declarations b ctx.macros ctx
  let content_start := script_setup.block.content_span.start
  let b := b.push_mapped script_setup.block.content content_start
  let b := b.newline
  let b := b.push_str (str "\nreturn \x7b\n")
  let b := ctx.macros.exposed.foldl (fun b export_name =>
    ((b.push_str (str "  ")).push_str export_name).push_str (str ",\n")) b
  let b := b.push_str (str "\x7d;\n")
  (b.push_str (str "\x7d\n\n"), ctx)

/-- `generate_component_export`. -/
def generate_component_export (b : CodeBuilder) (sfc : Sfc) (ctx : CodegenContext) :
    CodeBuilder :=
  let b := b.push_str (str "\n// Component definition\n")
  if sfc.has_script_setup then
    let b := b.push_str (str "export default __VLS_defineComponent(\x7b\n")
    let b :=
      if ctx.macros.define_props.isSome then
        b.push_str (str "  props: \x7b\x7d as __VLS_ExtractPropTypes<typeof __VLS_props>,\n")
      else b
    let b :=
      if ctx.macros.define_emits.isSome then
        b.push_str (str "  emits: \x7b\x7d as typeof __VLS_emit,\n")
      else b
    let b := b.push_str (str "  setup: __VLS_setup,\n")
    b.push_str (str "\x7d);\n")
  else if sfc.script.isSome then
    b.push_str (str "// Using Options API component\n")
  else
    b.push_str (str "export default __VLS_defineComponent(\x7b\x7d);\n")

/-- `detect_script_lang`. -/
def detect_script_lang (sfc : Sfc) : ScriptLang :=
  let lang_str := (sfc.script_lang).getD (str "js")
  if lang_str = str "ts" ∨ lang_str = str "typescript" then .Ts
  else if lang_str = str "tsx" then .Tsx
  else if lang_str = str "jsx" then .Jsx
  else .Js

/-- Result of code generation (`CodegenResult`). -/
structure CodegenResult where
  code : Str
  source_map : SourceMap
  lang : ScriptLang
  errors : List CodegenError
  deriving Repr, DecidableEq

/-- `generate`: the full pipeline.  The template generation fuel is generous
for the template size (the Rust recursion is plainly structural on the tree). -/
def generate (sfc : Sfc) (options : CodegenOptions) : CodegenResult :=
  let ctx := CodegenContext.new options
  let b := CodeBuilder.new
  let lang := detect_script_lang sfc
  let ctx := { ctx with lang := lang }
  let b := generate_helpers b ctx
  let b :=
    match sfc.script with
    | some script => generate_script b script ctx
    | none => b
  let (b, ctx) :=
    match sfc.script_setup with
    | some script_setup => generate_script_setup b script_setup sfc ctx
    | none => (b, ctx)
  let (b, ctx) :=
    match sfc.template with
    | some template =>
      match parse_template template.block.content with
      | .ok ast => generate_template (4 * template.block.content.length + 16) b ast ctx
      | .error _ => (b, ctx)
    | none => (b, ctx)
  let b := generate_component_export b sfc ctx
  let (code, source_map) := b.finish
  ⟨code, source_map, lang, ctx.errors⟩

/-- Diagnostic severity (`Severity`). -/
inductive Severity where
  | Error
  | Warning
  | Hint
  deriving Repr, DecidableEq

/-- Diagnostic codes (`DiagnosticCode`). -/
inductive DiagnosticCode where
  | UnknownComponent
  | UnknownDirective
  | InvalidVFor
  | InvalidVModel
  | MissingProp
  | InvalidPropType
  | UnknownEvent
  | InvalidSlot
  | DuplicateKey
  | MissingKey
  | InvalidComponentName
  | MissingOption
  | InvalidPropsDefinition
  | InvalidEmitsDefinition
  | InvalidMacroUsage
  | DuplicateMacro
  | UnusedSelector
  | InvalidDeepSelector
  deriving Repr, DecidableEq

/-- A diagnostic message (`Diagnostic`). -/
structure Diagnostic where
  message : Str
  span : Span
  severity : Severity
  code : DiagnosticCode
  deriving Repr, DecidableEq

/-- `Diagnostic::error`. -/
def Diagnostic.error (message : Str) (span : Span) (code : DiagnosticCode) : Diagnostic :=
  ⟨message, span, .Error, code⟩

/-- `Diagnostic::warning`. -/
def Diagnostic.warning (message : Str) (span : Span) (code : DiagnosticCode) : Diagnostic :=
  ⟨message, span, .Warning, code⟩

/-- `Diagnostic::hint`. -/
def Diagnostic.hint (message : Str) (span : Span) (code : DiagnosticCode) : Diagnostic :=
  ⟨message, span, .Hint, code⟩

/-- Options for diagnostics (`DiagnosticOptions`). -/
structure DiagnosticOptions where
  check_unknown_components : Bool
  check_unknown_directives : Bool
  check_v_for_keys : Bool
  known_components : List Str
  known_directives : List Str
  deriving Repr, DecidableEq

/-- `DiagnosticOptions::default()`. -/
def DiagnosticOptions.default : DiagnosticOptions := ⟨false, false, false, [], []⟩

/-- `component::check_script_setup`: a `DuplicateMacro` error at `span` for
each macro name occurring more than once (`str::matches(..).count()` counts
non-overlapping occurrences). -/
def check_script_setup (content : Str) (span : Span) : List Diagnostic :=
  let d1 : List Diagnostic :=
    if countOccurrences content (str "defineProps") > 1 then
      [Diagnostic.error (str "defineProps can only be called once") span .DuplicateMacro]
    else []
  let d2 : List Diagnostic :=
    if countOccurrences content (str "defineEmits") > 1 then
      [Diagnostic.error (str "defineEmits can only be called once") span .DuplicateMacro]
    else []
  let d3 : List Diagnostic :=
    if countOccurrences content (str "defineSlots") > 1 then
      [Diagnostic.error (str "defineSlots can only be called once") span .DuplicateMacro]
    else []
  let d4 : List Diagnostic :=
    if countOccurrences content (str "defineExpose") > 1 then
      [Diagnostic.error (str "defineExpose can only be called once") span .DuplicateMacro]
    else []
  let d5 : List Diagnostic :=
    if countOccurrences content (str "defineOptions") > 1 then
      [Diagnostic.error (str "defineOptions can only be called once") span .DuplicateMacro]
    else []
  d1 ++ d2 ++ d3 ++ d4 ++ d5

/-- `component::check_sfc`: only the script setup content is checked, at its
`content_span`. -/
def check_sfc (sfc : Sfc) (_options : DiagnosticOptions) : List Diagnostic :=
  match sfc.script_setup with
  | some script_setup =>
    check_script_setup script_setup.block.content script_setup.block.content_span
  | none => []

theorem isPrefixOf_append_self (l t : List Char) : l.isPrefixOf (l ++ t) = true := by
  induction l with
  | nil => simp [List.isPrefixOf]
  | cons c cs ih => simp [List.isPrefixOf, ih]

theorem countWhile_append_stop (p : Char → Bool) (xs : Str) (y : Char) (ys : Str)
    (hxs : ∀ c ∈ xs, p c = true) (hy : p y = false) :
    countWhile p (xs ++ y :: ys) = xs.length := by
  induction xs with
  | nil => simp [countWhile, hy]
  | cons a as ih =>
    have ha : p a = true := hxs a (by simp)
    simp [countWhile, ha, ih (fun c hc => hxs c (by simp [hc]))]

theorem searchFirst_of_here (f : Str → Option α) (s : Str) (r : α) (h : f s = some r) :
    searchFirst f s = some r := by
  cases s with
  | nil => simpa [searchFirst] using h
  | cons c rest => simp [searchFirst, h]

/-- C9 counterexample: for `defineProps<\x7b items: Array<string> \x7d>()` the
captured type argument is NOT the substring between the outermost angle
brackets: `[^>]+` stops at the first `>` (inside `Array<string>`), the typed
pattern then fails everywhere, the parenthesis pattern fails, and the
`contains` fallback records `type_arg = None`. -/
theorem c9_counterexample :
    extract_define_props (str "defineProps<\x7b items: Array<string> \x7d>()")
      = some ⟨none, none⟩ ∧
    (some (⟨none, none⟩ : DefinePropsInfo)
      ≠ some (⟨some (str "\x7b items: Array<string> \x7d"), none⟩ : DefinePropsInfo)) :=
  ⟨by rfl, by decide⟩

/-- C9 (amended): for a call `defineProps<T>()` whose type argument `T` is
non-empty and contains NO `>` character, macro extraction records exactly `T`
as the defineProps type argument; nested angle brackets in `T` are not
supported by the `[^>]+` pattern. -/
theorem c9_angle_type_arg (T : Str) (hne : T ≠ []) (hgt : ∀ c ∈ T, c ≠ '>') :
    extract_define_props (str "defineProps<" ++ T ++ str ">()") = some ⟨some T, none⟩ := by
  have hshape : str "defineProps<" ++ T ++ str ">()"
      = str "defineProps" ++ ('<' :: (T ++ '>' :: '(' :: ')' :: [])) := by
    show (str "defineProps" ++ ['<']) ++ T ++ (['>', '(', ')']) = _
    simp [List.append_assoc]
  have hcw : countWhile (fun c => c != '>') (T ++ '>' :: '(' :: ')' :: []) = T.length := by
    refine countWhile_append_stop _ _ _ _ (fun c hc => ?_) (by simp)
    simpa using hgt c hc
  have hmatch : matchDefinePropsTyped
      (str "defineProps" ++ ('<' :: (T ++ '>' :: '(' :: ')' :: []))) = some T := by
    rw [matchDefinePropsTyped]
    rw [isPrefixOf_append_self]
    simp only [if_true]
    rw [List.drop_left]
    have h0 : countWhile Char.isWhitespace ('<' :: (T ++ ['>', '(', ')'])) = 0 := by
      simp +decide [countWhile]
    rw [h0]
    simp only [List.drop_zero]
    rw [hcw]
    rw [if_neg (by simpa using hne)]
    rw [List.drop_left, List.take_left]
    rfl
  rw [hshape]
  rw [extract_define_props, searchFirst_of_here _ _ _ hmatch]

/-- C9 witness: the amended theorem applied to
`defineProps<\x7b items: string[] \x7d>()`. -/
theorem c9_witness :
    ((str "\x7b items: string[] \x7d" : Str) ≠ []) ∧
    (∀ c ∈ (str "\x7b items: string[] \x7d" : Str), c ≠ '>') ∧
    extract_define_props (str "defineProps<" ++ str "\x7b items: string[] \x7d" ++ str ">()")
      = some ⟨some (str "\x7b items: string[] \x7d"), none⟩ :=
  ⟨by decide, by decide,
    c9_angle_type_arg (str "\x7b items: string[] \x7d") (by decide) (by decide)⟩

/-- The S2 source: `<script setup lang="ts">` with `const msg = ref('Hello')`
and a template interpolating `msg`. -/
def c4source : Str :=
  str "<script setup lang=\"ts\">\nconst msg = ref(" ++ [sqc] ++ str "Hello" ++ [sqc]
    ++ str ")\n</script>\n<template><div>\x7b\x7b msg \x7d\x7d</div></template>"

/-- The parsed S2 component (checked against `parse_sfc` in the theorems). -/
def c4sfc : Sfc where
  content := c4source
  template := some ⟨⟨⟨60, 101⟩, ⟨70, 90⟩, str "<div>\x7b\x7b msg \x7d\x7d</div>", []⟩,
    none, false, none⟩
  script := none
  script_setup := some ⟨⟨⟨0, 59⟩, ⟨24, 50⟩,
    str "\nconst msg = ref(" ++ [sqc] ++ str "Hello" ++ [sqc] ++ str ")\n",
    [⟨str "setup", none, ⟨8, 14⟩, none⟩,
     ⟨str "lang", some (str "ts"), ⟨14, 23⟩, some ⟨20, 22⟩⟩]⟩,
    some (str "ts"), none, none⟩
  styles := []
  custom_blocks := []
  comments := []

set_option maxRecDepth 400000 in
set_option maxHeartbeats 16000000 in
/-- C4 counterexample: the generated `__VLS_template` body does NOT contain
the expression statement `(msg);` — because `msg` is never added to the
context scope variables (no code path constructs `VarSource::Setup`),
`wrap_expression_identifiers` rewrites it. -/
theorem c4_counterexample :
    parse_sfc c4source = .ok c4sfc ∧
    containsSub (generate c4sfc CodegenOptions.default).code (str "(msg);") = false :=
  ⟨by rfl, by rfl⟩

set_option maxRecDepth 400000 in
set_option maxHeartbeats 64000000 in
/-- C4 (amended): for the S2 component, `generate` produces code containing a
top-level import block from the vue package, a `function __VLS_setup()`, and a
`function __VLS_template()` whose body contains the expression statement
`(__VLS_ctx.msg);` — the identifier `msg` IS rewritten to `__VLS_ctx.msg`
because setup-scope bindings never enter `scope_vars` — and the detected
language is `Ts`. -/
theorem c4_generate_s2 :
    parse_sfc c4source = .ok c4sfc ∧
    (generate c4sfc CodegenOptions.default).lang = .Ts ∧
    containsSub (generate c4sfc CodegenOptions.default).code
      (str "import \x7b defineComponent as __VLS_defineComponent") = true ∧
    containsSub (generate c4sfc CodegenOptions.default).code
      (str "\x7d from " ++ [sqc] ++ str "vue" ++ [sqc] ++ str ";") = true ∧
    containsSub (generate c4sfc CodegenOptions.default).code
      (str "function __VLS_setup() \x7b") = true ∧
    containsSub (generate c4sfc CodegenOptions.default).code
      (str "function __VLS_template() \x7b") = true ∧
    containsSub (generate c4sfc CodegenOptions.default).code
      (str "(__VLS_ctx.msg);") = true :=
  ⟨by rfl, by rfl, by rfl, by rfl, by rfl, by rfl, by rfl⟩

/-- The S6 source: a script setup block calling `defineProps` twice. -/
def c8source : Str :=
  str "<script setup>defineProps<\x7b\x7d>(); defineProps<\x7b\x7d>();</script>"

/-- The parsed S6 component (checked against `parse_sfc` in the theorems). -/
def c8sfc : Sfc where
  content := c8source
  template := none
  script := none
  script_setup := some ⟨⟨⟨0, 60⟩, ⟨14, 51⟩,
    str "defineProps<\x7b\x7d>(); defineProps<\x7b\x7d>();",
    [⟨str "setup", none, ⟨8, 13⟩, none⟩]⟩, none, none, none⟩
  styles := []
  custom_blocks := []
  comments := []

/-- C8 counterexample: the single `DuplicateMacro` diagnostic for S6 is
reported at the setup block's CONTENT span `[14,51)`, not at the block's own
span `[0,60)`: `check_sfc` passes `content_span` to `check_script_setup`. -/
theorem c8_counterexample :
    parse_sfc c8source = .ok c8sfc ∧
    check_sfc c8sfc DiagnosticOptions.default
      = [Diagnostic.error (str "defineProps can only be called once") ⟨14, 51⟩
          .DuplicateMacro] ∧
    c8sfc.script_setup.map (fun s => s.block.span) = some ⟨0, 60⟩ ∧
    ((⟨14, 51⟩ : Span) ≠ (⟨0, 60⟩ : Span)) :=
  ⟨by rfl, by rfl, by rfl, by decide⟩

set_option maxRecDepth 400000 in
set_option maxHeartbeats 32000000 in
/-- C8 (amended): for S6 the component diagnostics produce exactly one
`DuplicateMacro` error, whose span equals the setup block's content span
`[14,51)` (not the block span), and the code generator still emits exactly one
`const __VLS_props = defineProps` declaration. -/
theorem c8_duplicate_macro :
    parse_sfc c8source = .ok c8sfc ∧
    c8sfc.script_setup.map (fun s => s.block.content_span) = some ⟨14, 51⟩ ∧
    check_sfc c8sfc DiagnosticOptions.default
      = [Diagnostic.error (str "defineProps can only be called once") ⟨14, 51⟩
          .DuplicateMacro] ∧
    countOccurrences (generate c8sfc CodegenOptions.default).code
      (str "const __VLS_props = defineProps") = 1 :=
  ⟨by rfl, by rfl, by rfl, by rfl⟩
